import Mathlib

/-!
# Session manager of the multi-session chat gateway

A shallow embedding of `internal/session/session.go`, `internal/session/manager.go`,
`internal/session/storage.go` and of the receive handler and the bearer middleware of
`internal/api/session_handlers.go`.

* A Go `string` is a `String`, a Go `int` is an `Int` (every Go `int` is one; the
  only arithmetic the code does on it is comparison with a slice length).
* A slice is a `List`; the `nil` slice and the empty slice are both `[]`.
* A Go `map[string]V` is an association list with unique keys (`mapGet`, `mapSet`).
* The protocol client (`*whatsmeow.Client`) is an external object.  Its observable
  state, `IsConnected()` and `Store.ID`, is recorded in `Client`; a `nil` pointer
  is `none`.  The locks are not modelled: every operation below is one atomic step.
* The token file is modelled by its content; the outcomes of `rand.Read`, `os.ReadDir`,
  `os.ReadFile` and `os.WriteFile` are inputs.
-/

namespace WaSession

/-! ## Data model (`session.go`) -/

/-- The Go struct `IncomingMessage`. -/
structure IncomingMessage where
  From : String
  Name : String
  Message : String
  Timestamp : Int
  deriving DecidableEq, Repr

/-- Observable state of the live protocol client: the result of `IsConnected()` and
the field `Store.ID` (`none` for a nil pointer, otherwise the text that
`Store.ID.String()` returns). -/
structure Client where
  IsConnected : Bool
  StoreID : Option String
  deriving DecidableEq, Repr

/-- The Go struct `Session` without its mutex. `Client = none` is the nil pointer. -/
structure Session where
  ID : String
  Token : String
  Client : Option Client
  QR : String
  LoggedIn : Bool
  Connected : Bool
  JID : String
  Messages : List IncomingMessage
  deriving DecidableEq, Repr

/-- The Go struct `SessionInfo`. -/
structure SessionInfo where
  ID : String
  Connected : Bool
  JID : String
  deriving DecidableEq, Repr

/-- The composite literal `&Session{ID: id, Token: token, Client: client}`: every
other field has its zero value. -/
def newSession (id token : String) (client : Option Client) : Session :=
  { ID := id, Token := token, Client := client, QR := "", LoggedIn := false,
    Connected := false, JID := "", Messages := [] }

namespace Session

def Snapshot (s : Session) : SessionInfo :=
  { ID := s.ID, Connected := s.Connected, JID := s.JID }

def SetQR (s : Session) (qr : String) : Session := { s with QR := qr }

def UpdateStatusFromClient (s : Session) : Session :=
  match s.Client with
  | none => { s with Connected := false, LoggedIn := false, JID := "" }
  | some c =>
    { s with
      Connected := c.IsConnected
      LoggedIn := c.StoreID.isSome
      JID := match c.StoreID with
        | some jid => jid
        | none => "" }

def SetConnected (s : Session) (connected : Bool) : Session := { s with Connected := connected }

def SetLoggedIn (s : Session) (loggedIn : Bool) : Session := { s with LoggedIn := loggedIn }

def SetJID (s : Session) (jid : String) : Session := { s with JID := jid }

def AddMessage (s : Session) (msg : IncomingMessage) : Session :=
  { s with Messages := s.Messages ++ [msg] }

/-- Method `PopMessages`: the returned slice and the session afterwards. -/
def PopMessages (s : Session) (limit : Int) : List IncomingMessage × Session :=
  let limit : Int :=
    if limit ≤ 0 ∨ limit > (s.Messages.length : Int) then (s.Messages.length : Int) else limit
  if limit = 0 then
    ([], s)
  else
    (s.Messages.take limit.toNat, { s with Messages := s.Messages.drop limit.toNat })

def SetToken (s : Session) (token : String) : Session := { s with Token := token }

def GetToken (s : Session) : String := s.Token

end Session

/-! ## Go maps -/

/-- Map read `m[k]` with the comma-ok form: `none` when the key is absent. -/
def mapGet {V : Type} : List (String × V) → String → Option V
  | [], _ => none
  | (k', v) :: rest, k => if k' = k then some v else mapGet rest k

/-- Map write `m[k] = v`: replaces the value of an existing key, adds the key otherwise. -/
def mapSet {V : Type} : List (String × V) → String → V → List (String × V)
  | [], k, v => [(k, v)]
  | (k', v') :: rest, k, v =>
    if k' = k then (k, v) :: rest else (k', v') :: mapSet rest k v

/-- The keys of a map. -/
def mapKeys {V : Type} (m : List (String × V)) : List String := m.map Prod.fst

/-! ## Registry (`manager.go`) -/

/-- The Go struct `Manager` without its mutex. The map `sessions` holds pointers in the
source; here it holds the current state of the session each pointer refers to. -/
structure Manager where
  sessions : List (String × Session)
  tokens : List (String × String)
  deriving DecidableEq, Repr

/-- Results of the fallible steps of `CreateSession`, in the order the code performs
them: `newSessionID`, `newToken`, `whatsapp.NewClient` (never a nil client on success)
and `WriteToken` (`none` is the nil error). -/
structure CreateInputs where
  newSessionID : Except String String
  newToken : Except String String
  NewClient : Except String Client
  WriteToken : Option String

/-- The registry built by `GetManager`: two empty maps. -/
def GetManager : Manager := { sessions := [], tokens := [] }

namespace Manager

def GetSession (m : Manager) (id : String) : Option Session := mapGet m.sessions id

def GetSessionByToken (m : Manager) (token : String) : Option Session :=
  match mapGet m.tokens token with
  | none => none
  | some id => m.GetSession id

/-- Method `ListSessions`. Go iterates over the map in an unspecified order that may
differ from call to call; the list here is one of the possible orders. -/
def ListSessions (m : Manager) : List SessionInfo := m.sessions.map fun p => p.2.Snapshot

/-- Method `CreateSession` up to its return; the `go m.Connect(sess)` it starts is the
later step `Connect`. Returns the result and the registry when the call returns. -/
def CreateSession (m : Manager) (inp : CreateInputs) : Except String String × Manager :=
  match inp.newSessionID with
  | .error err => (.error err, m)
  | .ok id =>
    match inp.newToken with
    | .error err => (.error err, m)
    | .ok token =>
      match inp.NewClient with
      | .error err => (.error err, m)
      | .ok client =>
        let sess := (newSession id token (some client)).UpdateStatusFromClient
        match inp.WriteToken with
        | some err => (.error err, m)
        | none =>
          (.ok token,
            { sessions := mapSet m.sessions id sess, tokens := mapSet m.tokens token id })

end Manager

/-- A call issued on the protocol client by `Connect`. -/
inductive ClientCall where
  | GetQRChannel
  | Connect
  deriving DecidableEq, Repr

/-- What the protocol client does during one `Connect`: whether `GetQRChannel` returns a
channel, and the client state once `Client.Connect()` has returned (its error is only
logged). -/
structure ConnectEnv where
  qrChannelOk : Bool
  afterConnect : Client
  deriving DecidableEq, Repr

/-- Outcome of `Connect`: the session afterwards, the client calls issued in order, and
whether the goroutine reading the QR channel was started. -/
structure ConnectResult where
  session : Session
  calls : List ClientCall
  qrStream : Bool
  deriving DecidableEq, Repr

/-- Method `Manager.Connect` (it does not touch the registry). The session pointer is
non-nil at every call site. -/
def Connect (session : Session) (env : ConnectEnv) : ConnectResult :=
  match session.Client with
  | none => { session := session, calls := [], qrStream := false }
  | some c =>
    if c.IsConnected then
      { session := { session with Connected := true }, calls := [], qrStream := false }
    else
      let s1 : Session := if c.StoreID.isNone then session else session.SetQR ""
      let calls1 : List ClientCall := if c.StoreID.isNone then [ClientCall.GetQRChannel] else []
      let stream : Bool := c.StoreID.isNone && env.qrChannelOk
      let s2 : Session := { s1 with Client := some env.afterConnect }
      { session := s2.UpdateStatusFromClient,
        calls := calls1 ++ [ClientCall.Connect],
        qrStream := stream }

/-- An item received from the QR channel: its `Event` and `Code` fields. -/
structure QRChannelItem where
  Event : String
  Code : String
  deriving DecidableEq, Repr

/-- One iteration of the goroutine that `Connect` starts on the QR channel. -/
def qrStreamStep (session : Session) (evt : QRChannelItem) : Session :=
  if evt.Event = "code" then session.SetQR evt.Code
  else if evt.Event = "success" ∨ evt.Event = "timeout" then session.SetQR ""
  else session

/-- Method `reconnectWithDelay`; `atWake` is the client state when the sleep ends. -/
def reconnectWithDelay (sess : Session) (atWake : Client) (env : ConnectEnv) : ConnectResult :=
  match sess.Client with
  | none => { session := sess, calls := [], qrStream := false }
  | some c =>
    if c.IsConnected then { session := sess, calls := [], qrStream := false }
    else Connect { sess with Client := some atWake } env

/-! ## QR rendering (`whatsapp/qr.go`) -/

/-- Arguments of one `Client.SendMessage` call: the JID built by
`types.NewJID(phone, "s.whatsapp.net")` and the `Conversation` text of the message. -/
structure SendCall where
  User : String
  Server : String
  Conversation : String
  deriving DecidableEq, Repr

/-- Method `Manager.SendTextByToken`. `SendMessage` is the underlying client's send, giving
the error it returns (`none` is nil). Result: the returned error and the list of
`SendMessage` calls made. -/
def Manager.SendTextByToken (m : Manager) (SendMessage : SendCall → Option String)
    (token phone message : String) : Option String × List SendCall :=
  match m.GetSessionByToken token with
  | none => (some "session not found", [])
  | some sess =>
    match sess.Client with
    | none => (some "session client not initialized", [])
    | some c =>
      if !c.IsConnected then (some "session not connected", [])
      else if c.StoreID.isNone then (some "session not logged in", [])
      else
        let call : SendCall :=
          { User := phone, Server := "s.whatsapp.net", Conversation := message }
        (SendMessage call, [call])

/-! ## Event dispatch -/

/-- The protobuf message `ExtendedTextMessage`: its optional `Text` field. -/
structure ExtendedTextMessage where
  Text : Option String
  deriving DecidableEq, Repr

/-- The protobuf message `waProto.Message`, restricted to the two fields the code reads. -/
structure WAMessage where
  Conversation : Option String
  ExtendedTextMessage : Option ExtendedTextMessage
  deriving DecidableEq, Repr

/-- Getter `GetConversation`: the empty string when the field is unset. -/
def WAMessage.GetConversation (m : WAMessage) : String := m.Conversation.getD ""

/-- Getter `GetText`: the empty string when the field is unset. -/
def ExtendedTextMessage.GetText (m : ExtendedTextMessage) : String := m.Text.getD ""

/-- The struct `events.Message`: `Info.Sender.User`, `Info.PushName`,
`Info.Timestamp.Unix()` and the `Message` pointer. -/
structure MessageEvent where
  SenderUser : String
  PushName : String
  TimestampUnix : Int
  Message : Option WAMessage
  deriving DecidableEq, Repr

def extractTextMessage (evt : Option MessageEvent) : Option IncomingMessage :=
  match evt with
  | none => none
  | some e =>
    match e.Message with
    | none => none
    | some msg =>
      let text : String :=
        if msg.GetConversation ≠ "" then msg.GetConversation
        else match msg.ExtendedTextMessage with
          | some ext => ext.GetText
          | none => ""
      if text = "" then none
      else some { From := e.SenderUser, Name := e.PushName, Message := text,
                  Timestamp := e.TimestampUnix }

/-- The dynamic type of the value passed to the event handler. -/
inductive Event where
  | Message (e : Option MessageEvent)
  | Connected
  | Disconnected
  | LoggedOut
  | Other
  deriving DecidableEq, Repr

/-- The type switch of the handler built by `makeEventHandler`, on the session found.
`none` is the nil-pointer panic of `sess.Client.Store` on a session without client. The
goroutine started for `Disconnected` is the later step `reconnectWithDelay`. -/
def handleEvent (sess : Session) : Event → Option Session
  | .Message e =>
    match extractTextMessage e with
    | some msg => some (sess.AddMessage msg)
    | none => some sess
  | .Connected =>
    match sess.Client with
    | none => none
    | some c =>
      let s1 := (sess.SetConnected true).SetLoggedIn c.StoreID.isSome
      match c.StoreID with
      | some jid => some (s1.SetJID jid)
      | none => some s1
  | .Disconnected => some (sess.SetConnected false)
  | .LoggedOut => some ((((sess.SetConnected false).SetLoggedIn false).SetJID "").SetQR "")
  | .Other => some sess

/-- The closure returned by `makeEventHandler(id)`, applied to one event: the registry
afterwards, `none` when the handler panics. -/
def Manager.makeEventHandler (m : Manager) (id : String) (evt : Event) : Option Manager :=
  match m.GetSession id with
  | none => some m
  | some sess =>
    match handleEvent sess evt with
    | none => none
    | some sess' => some { m with sessions := mapSet m.sessions id sess' }

/-! ## Receive handler (`api/session_handlers.go`) -/

/-- Value of a decimal digit, `none` for any other character. -/
def digitVal (c : Char) : Option Nat :=
  if 48 ≤ c.toNat ∧ c.toNat ≤ 57 then some (c.toNat - 48) else none

/-- Value of a string of decimal digits read left to right from `acc`. -/
def parseDigits : List Char → Nat → Option Nat
  | [], acc => some acc
  | c :: rest, acc =>
    match digitVal c with
    | none => none
    | some d => parseDigits rest (acc * 10 + d)

/-- The library function `strconv.Atoi` on a 64-bit platform: an optional sign, then one
or more decimal digits, the value within the range of `int`; `none` is a non-nil error. -/
def Atoi (s : String) : Option Int :=
  let cs := s.data
  let neg : Bool := cs.head? = some '-'
  let ds : List Char :=
    match cs with
    | '-' :: r => r
    | '+' :: r => r
    | _ => cs
  if ds = [] then none
  else
    match parseDigits ds 0 with
    | none => none
    | some n =>
      let v : Int := if neg then -(n : Int) else (n : Int)
      if -(2 : Int) ^ 63 ≤ v ∧ v ≤ (2 : Int) ^ 63 - 1 then some v else none

/-- The call `r.URL.Query().Get(key)`: the first value of the key, the empty string when
the key is absent. -/
def queryGet (query : List (String × String)) (key : String) : String :=
  match query.find? (fun p => p.1 = key) with
  | some p => p.2
  | none => ""

/-- The limit `handleReceiveMessages` passes to `PopMessages`. -/
def receiveLimit (query : List (String × String)) : Int :=
  let q := queryGet query "limit"
  if q ≠ "" then
    match Atoi q with
    | some v => if v > 0 then v else 20
    | none => 20
  else 20

/-- A JSON response: status code and either an error text or a message list. -/
inductive Response where
  | error (status : Nat) (text : String)
  | messages (status : Nat) (msgs : List IncomingMessage)
  deriving DecidableEq, Repr

/-- Handler `handleReceiveMessages`: `ctx` is the session found in the request context
(`none` when absent). Returns the response and the session afterwards. -/
def handleReceiveMessages (ctx : Option Session) (query : List (String × String)) :
    Response × Option Session :=
  match ctx with
  | none => (Response.error 401 "unauthorized", none)
  | some sess =>
    let limit := receiveLimit query
    let r := sess.PopMessages limit
    (Response.messages 200 r.1, some r.2)

/-! ## Operation sequences -/

/-- One queue operation: `AddMessage(msg)` or `PopMessages(limit)`. -/
inductive QueueOp where
  | add (msg : IncomingMessage)
  | pop (limit : Int)
  deriving DecidableEq, Repr

/-- Applies queue operations one after another; returns the results of the
`PopMessages` calls in call order and the session afterwards. -/
def runQueueOps : Session → List QueueOp → List (List IncomingMessage) × Session
  | s, [] => ([], s)
  | s, .add msg :: ops => runQueueOps (s.AddMessage msg) ops
  | s, .pop limit :: ops =>
    let r := s.PopMessages limit
    let rest := runQueueOps r.2 ops
    (r.1 :: rest.1, rest.2)

/-- The messages passed to `AddMessage`, in call order. -/
def enqueuedBy : List QueueOp → List IncomingMessage
  | [] => []
  | .add msg :: ops => msg :: enqueuedBy ops
  | .pop _ :: ops => enqueuedBy ops

/-- One step in the life of a session: an event dispatched to its handler, an item
received from the QR channel, a `Connect` call, a `reconnectWithDelay` call, an
`UpdateStatusFromClient` call, a `PopMessages` call, or a change of the live client's
state made by the protocol library. -/
inductive Step where
  | event (evt : Event)
  | qr (item : QRChannelItem)
  | connect (env : ConnectEnv)
  | reconnect (atWake : Client) (env : ConnectEnv)
  | updateStatus
  | pop (limit : Int)
  | clientChange (c : Client)
  deriving DecidableEq, Repr

/-- The session after one step; `none` when the step panics. -/
def stepSession (s : Session) : Step → Option Session
  | .event evt => handleEvent s evt
  | .qr item => some (qrStreamStep s item)
  | .connect env => some (Connect s env).session
  | .reconnect atWake env => some (reconnectWithDelay s atWake env).session
  | .updateStatus => some s.UpdateStatusFromClient
  | .pop limit => some (s.PopMessages limit).2
  | .clientChange c =>
    match s.Client with
    | none => some s
    | some _ => some { s with Client := some c }

/-- The session after a sequence of steps. -/
def runSteps : Session → List Step → Option Session
  | s, [] => some s
  | s, st :: rest =>
    match stepSession s st with
    | none => none
    | some s1 => runSteps s1 rest

/-- The status invariant of the data model: a logged-in session has a JID, and a session
with a pending QR payload is not logged in. -/
def statusInvariant (s : Session) : Prop :=
  (s.LoggedIn = true → s.JID ≠ "") ∧ (s.QR ≠ "" → s.LoggedIn = false)

instance (s : Session) : Decidable (statusInvariant s) := by
  unfold statusInvariant
  infer_instance

/-- The connected case of the handler, setter by setter: each of `SetConnected`,
`SetLoggedIn` and `SetJID` takes and releases the session lock on its own, so the session
is visible to other goroutines after each of them. The states after each setter, in
order; `none` when the session has no client. -/
def connectedEventStates (sess : Session) : Option (List Session) :=
  match sess.Client with
  | none => none
  | some c =>
    let s1 := sess.SetConnected true
    let s2 := s1.SetLoggedIn c.StoreID.isSome
    match c.StoreID with
    | some jid => some [s1, s2, s2.SetJID jid]
    | none => some [s1, s2]

/-! ## Bearer authentication (`api/session_handlers.go`) -/

/-- The library predicate `unicode.IsSpace`, on the code point of the rune. -/
def isSpace (c : Char) : Bool :=
  c.toNat = 9 || c.toNat = 10 || c.toNat = 11 || c.toNat = 12 || c.toNat = 13 ||
  c.toNat = 32 || c.toNat = 0x85 || c.toNat = 0xA0 || c.toNat = 0x1680 ||
  (0x2000 ≤ c.toNat && c.toNat ≤ 0x200A) || c.toNat = 0x2028 || c.toNat = 0x2029 ||
  c.toNat = 0x202F || c.toNat = 0x205F || c.toNat = 0x3000

/-- Worker of `Fields`: `cur` holds the runes of the field being read, last rune first. -/
def fieldsAux : List Char → List Char → List String
  | [], cur => if cur = [] then [] else [String.mk cur.reverse]
  | c :: rest, cur =>
    if isSpace c then
      if cur = [] then fieldsAux rest [] else String.mk cur.reverse :: fieldsAux rest []
    else fieldsAux rest (c :: cur)

/-- The library function `strings.Fields`: the maximal runs of non-space runes, in order. -/
def Fields (s : String) : List String := fieldsAux s.data []

/-- The library function `strings.ToLower`. ASCII runes are lowered by their code; `lower`
is the table of `unicode.ToLower` for the runes outside ASCII. -/
def ToLower (lower : Char → Char) (s : String) : String :=
  String.mk (s.data.map fun c => if c.toNat < 128 then c.toLower else lower c)

/-- The call `r.Header.Get(key)` for a canonical key: the first value of the key, the
empty string when the header is absent. -/
def headerGet (header : List (String × List String)) (key : String) : String :=
  match mapGet header key with
  | some (v :: _) => v
  | _ => ""

def extractBearerToken (lower : Char → Char) (header : List (String × List String)) : String :=
  let auth := headerGet header "Authorization"
  if auth = "" then ""
  else
    match Fields auth with
    | [scheme, token] => if ToLower lower scheme ≠ "bearer" then "" else token
    | _ => ""

/-- What the middleware does with a request: answer it with an error, or call
`next.ServeHTTP` with the session stored in the request context. -/
inductive AuthOutcome where
  | reject (status : Nat) (text : String)
  | next (sess : Session)
  deriving DecidableEq, Repr

/-- The middleware `authSession`, up to the call of `next`. -/
def authSession (m : Manager) (lower : Char → Char) (header : List (String × List String)) :
    AuthOutcome :=
  let token := extractBearerToken lower header
  if token = "" then AuthOutcome.reject 401 "missing bearer token"
  else
    match m.GetSessionByToken token with
    | none => AuthOutcome.reject 401 "invalid token"
    | some sess => AuthOutcome.next sess

/-- The handler `authSession(next)` serving one request: the response and the registry
afterwards. `next` is the wrapped handler, given the session of the request context. -/
def serveWithAuth (m : Manager) (lower : Char → Char) (header : List (String × List String))
    (next : Session → Manager → Response × Manager) : Response × Manager :=
  match authSession m lower header with
  | AuthOutcome.reject status text => (Response.error status text, m)
  | AuthOutcome.next sess => next sess m

/-- Every token of the token index refers to an id of the id map. -/
def tokensLive (m : Manager) : Prop :=
  ∀ t id, mapGet m.tokens t = some id → ∃ s, mapGet m.sessions id = some s

/-- The lowering table sends no rune outside ASCII to a letter of the word bearer. Go's
table lowers only U+0130 and U+212A to ASCII letters, to i and to k. -/
def lowerKeepsBearer (lower : Char → Char) : Prop :=
  ∀ c : Char, 128 ≤ c.toNat →
    lower c ≠ 'b' ∧ lower c ≠ 'e' ∧ lower c ≠ 'a' ∧ lower c ≠ 'r'

/-- A lowering table for the sample requests: U+0130 to i, U+212A to k, every other rune
unchanged. -/
def sampleLower (c : Char) : Char :=
  if c.toNat = 0x130 then 'i' else if c.toNat = 0x212A then 'k' else c

/-! ## Session store (`session/storage.go`) and restoration -/

/-- The library function `strings.TrimSpace`: leading and trailing white space removed. -/
def TrimSpace (s : String) : String :=
  String.mk ((s.data.dropWhile isSpace).rdropWhile isSpace)

/-- The digit table of `encoding/hex`. -/
def hexDigit (n : Nat) : Char := "0123456789abcdef".data.getD n '0'

/-- The library function `hex.EncodeToString`; a byte is a natural number below 256, its
high and low half written as `b / 16 % 16` and `b % 16`. -/
def EncodeToString (src : List Nat) : String :=
  String.mk (src.flatMap fun b => [hexDigit (b / 16 % 16), hexDigit (b % 16)])

/-- Function `newSessionID`; `rand n` is the outcome of `rand.Read` on a buffer of `n`
bytes: the bytes it filled in, or its error. -/
def newSessionID (rand : Nat → Except String (List Nat)) : Except String String :=
  match rand 8 with
  | .error err => .error err
  | .ok buf => .ok (EncodeToString buf)

/-- Function `newToken`, with `rand` as in `newSessionID`. -/
def newToken (rand : Nat → Except String (List Nat)) : Except String String :=
  match rand 32 with
  | .error err => .error err
  | .ok buf => .ok (EncodeToString buf)

def storeRoot : String := "store"

def sessionPrefix : String := "session_"

def tokenFileName : String := "token.txt"

/-- The call `filepath.Join(a, b)` for two non-empty elements free of separators and dot
segments, which `Clean` leaves as they are. -/
def filepathJoin (a b : String) : String := a ++ "/" ++ b

def SessionDir (id : String) : String := filepathJoin storeRoot ( sessionPrefix ++ id)

def TokenPath (id : String) : String := filepathJoin (SessionDir id) tokenFileName

/-- The files that can be read, by path, with their content. -/
abbrev FileSystem := List (String × String)

/-- Function `ReadToken`: `os.ReadFile` fails when the file system holds no readable file
at the path. -/
def ReadToken (fs : FileSystem) (id : String) : Except String String :=
  match mapGet fs (TokenPath id) with
  | none => .error "read failed"
  | some data => .ok (TrimSpace data)

/-- Function `WriteToken`: `writeErr` is the error `os.WriteFile` returns (`none` is nil);
on success the file holds the token followed by a newline. -/
def WriteToken (fs : FileSystem) (id token : String) (writeErr : Option String) :
    Option String × FileSystem :=
  match writeErr with
  | some err => (some err, fs)
  | none => (none, mapSet fs (TokenPath id) (token ++ "\n"))

/-- An entry returned by `os.ReadDir`. -/
structure DirEntry where
  Name : String
  IsDir : Bool
  deriving DecidableEq, Repr

/-- Function `ListSessionIDs`; `readDir` is the outcome of `EnsureStoreRoot` followed by
`os.ReadDir(storeRoot)`. -/
def ListSessionIDs (readDir : Except String (List DirEntry)) : Except String (List String) :=
  match readDir with
  | .error err => .error err
  | .ok entries =>
    .ok ((entries.filter fun e => e.IsDir && List.isPrefixOf sessionPrefix.data e.Name.data).map
      fun e => String.mk (e.Name.data.drop sessionPrefix.length))

/-- The two map writes `m.sessions[id] = sess` and `m.tokens[token] = id` for the session
built from `id`, `token` and `client` and refreshed from the client. -/
def Manager.register (m : Manager) (id token : String) (client : Client) : Manager :=
  { sessions := mapSet m.sessions id (newSession id token (some client)).UpdateStatusFromClient,
    tokens := mapSet m.tokens token id }

/-- What the environment answers during a restoration, per session id: the outcome of
`whatsapp.NewClient`, of `newToken` and of `os.WriteFile` in `WriteToken`. -/
structure RestoreEnv where
  NewClient : String → Except String Client
  newToken : String → Except String String
  writeErr : String → Option String

/-- State of the restoration loop: the registry, the file system, the ids for which
`newToken` was called, and the sessions registered so far (id, token, client) in order;
a `Connect` goroutine is started for each registered session. -/
structure RestoreState where
  m : Manager
  fs : FileSystem
  minted : List String
  registered : List (String × String × Client)

/-- The end of one loop iteration: the session is built, registered and connected. -/
def RestoreState.register (st : RestoreState) (id token : String) (client : Client) :
    RestoreState :=
  { st with m := st.m.register id token client, registered := st.registered ++ [(id, token, client)] }

/-- One iteration of the loop of `RestoreSessionsOnStartup`; a `continue` returns the
state reached so far. -/
def restoreOne (env : RestoreEnv) (st : RestoreState) (id : String) : RestoreState :=
  match env.NewClient id with
  | .error _ => st
  | .ok client =>
    match ReadToken st.fs id with
    | .ok token =>
      if token = "" then
        match env.newToken id with
        | .error _ => { st with minted := st.minted ++ [id] }
        | .ok token1 =>
          match WriteToken st.fs id token1 (env.writeErr id) with
          | (some _, fs1) => { st with fs := fs1, minted := st.minted ++ [id] }
          | (none, fs1) =>
            ({ st with fs := fs1, minted := st.minted ++ [id] } : RestoreState).register id token1 client
      else st.register id token client
    | .error _ =>
      match env.newToken id with
      | .error _ => { st with minted := st.minted ++ [id] }
      | .ok token1 =>
        match WriteToken st.fs id token1 (env.writeErr id) with
        | (some _, fs1) => { st with fs := fs1, minted := st.minted ++ [id] }
        | (none, fs1) =>
          ({ st with fs := fs1, minted := st.minted ++ [id] } : RestoreState).register id token1 client

/-- Method `RestoreSessionsOnStartup`: the returned error and the state when it returns. -/
def RestoreSessionsOnStartup (m : Manager) (fs : FileSystem) (env : RestoreEnv)
    (readDir : Except String (List DirEntry)) : Option String × RestoreState :=
  match ListSessionIDs readDir with
  | .error err => (some err, { m := m, fs := fs, minted := [], registered := [] })
  | .ok ids =>
    (none, ids.foldl (restoreOne env) { m := m, fs := fs, minted := [], registered := [] })

/-- The extended-text body of a message: the text of its `ExtendedTextMessage`, empty
when the message has none. -/
def extendedText (msg : WAMessage) : String :=
  match msg.ExtendedTextMessage with
  | some ext => ext.GetText
  | none => ""

/-! ## Registry insertions -/

/-- One call that inserts into the registry: `CreateSession` or `RestoreSessionsOnStartup`,
with what the environment answers during the call. -/
inductive RegistryOp where
  | create (inp : CreateInputs)
  | restore (fs : FileSystem) (env : RestoreEnv) (readDir : Except String (List DirEntry))

/-- The registry after one call. -/
def applyOp (m : Manager) : RegistryOp → Manager
  | .create inp => (m.CreateSession inp).2
  | .restore fs env readDir => (RestoreSessionsOnStartup m fs env readDir).2.m

/-- The sessions a call registers on registry `m`, in order: id, token and client. -/
def insertionsOf (m : Manager) : RegistryOp → List (String × String × Client)
  | .create inp =>
    match inp.newSessionID, inp.newToken, inp.NewClient, inp.WriteToken with
    | .ok id, .ok token, .ok client, none => [(id, token, client)]
    | _, _, _, _ => []
  | .restore fs env readDir => (RestoreSessionsOnStartup m fs env readDir).2.registered

/-- The registry after a sequence of calls. -/
def runOps : Manager → List RegistryOp → Manager
  | m, [] => m
  | m, op :: rest => runOps (applyOp m op) rest

/-- The registry after registering the listed sessions one after another. -/
def registerAll (m : Manager) (log : List (String × String × Client)) : Manager :=
  log.foldl (fun m0 t => m0.register t.1 t.2.1 t.2.2) m

/-- Freshness of a list of insertions: each id is not yet a key of the id map and each
token not yet a key of the token index when it is inserted. -/
def freshInsertions : Manager → List (String × String × Client) → Bool
  | _, [] => true
  | m, (id, token, client) :: rest =>
    (mapGet m.sessions id).isNone && (mapGet m.tokens token).isNone &&
      freshInsertions (m.register id token client) rest

/-- Freshness of every insertion made by a sequence of calls. -/
def freshRun : Manager → List RegistryOp → Bool
  | _, [] => true
  | m, op :: rest => freshInsertions m (insertionsOf m op) && freshRun (applyOp m op) rest

/-- Every token of the index maps to a registered session that carries this token and
the id it is registered under. -/
def tokensResolve (m : Manager) : Prop :=
  ∀ t id, mapGet m.tokens t = some id →
    ∃ s, mapGet m.sessions id = some s ∧ s.Token = t ∧ s.ID = id

/-- A restoration environment for the sample runs: every client is rebuilt, signed in;
minting yields a fixed token and the write succeeds. -/
def sampleRestoreEnv : RestoreEnv :=
  { NewClient := fun _ => .ok ⟨false, some "4915@s.whatsapp.net"⟩,
    newToken := fun _ => .ok "tok-minted",
    writeErr := fun _ => none }

/-! ## Sample data -/

/-- A session that is paired and connected, with one queued message. -/
def sampleSession : Session :=
  { ID := "9f3c2a1b5d7e8f60", Token := "tok-A",
    Client := some ⟨true, some "4915@s.whatsapp.net"⟩, QR := "",
    LoggedIn := true, Connected := true, JID := "4915@s.whatsapp.net",
    Messages := [⟨"4917", "Ann", "hello", 1700000000⟩] }

/-- A registry holding `sampleSession`. -/
def sampleManager : Manager :=
  { sessions := [("9f3c2a1b5d7e8f60", sampleSession)],
    tokens := [("tok-A", "9f3c2a1b5d7e8f60")] }

/-- A session record last refreshed before pairing completed: the client is connected
and has an identity, the record still says not logged in. -/
def staleSession : Session :=
  { ID := "a1", Token := "t1", Client := some ⟨true, some "4915@s.whatsapp.net"⟩,
    QR := "", LoggedIn := false, Connected := true, JID := "", Messages := [] }

theorem mapGet_mapSet_self {V : Type} (m : List (String × V)) (k : String) (v : V) :
    mapGet (mapSet m k v) k = some v := by
  induction m with
  | nil => simp [mapSet, mapGet]
  | cons p rest ih =>
    obtain ⟨k', v'⟩ := p
    by_cases h : k' = k
    · simp [mapSet, mapGet, h]
    · simp [mapSet, mapGet, h, ih]

theorem mapGet_mapSet_other {V : Type} (m : List (String × V)) (k k2 : String) (v : V)
    (hne : k2 ≠ k) : mapGet (mapSet m k v) k2 = mapGet m k2 := by
  induction m with
  | nil =>
    have h : ¬ k = k2 := fun h => hne h.symm
    simp [mapSet, mapGet, h]
  | cons p rest ih =>
    obtain ⟨k', v'⟩ := p
    by_cases h : k' = k
    · subst h
      have h2 : ¬ k' = k2 := fun h => hne h.symm
      simp [mapSet, mapGet, h2]
    · by_cases h3 : k' = k2
      · subst h3
        simp [mapSet, mapGet, h]
      · simp [mapSet, mapGet, h, h3, ih]

theorem mapKeys_mapSet_present {V : Type} (m : List (String × V)) (k : String) (v w : V)
    (hk : mapGet m k = some w) : mapKeys (mapSet m k v) = mapKeys m := by
  induction m with
  | nil => simp [mapGet] at hk
  | cons p rest ih =>
    obtain ⟨k', v'⟩ := p
    by_cases h : k' = k
    · simp [mapSet, mapKeys, h]
    · simp only [mapGet, h, if_false] at hk
      have := ih hk
      simp only [mapKeys] at this
      simp [mapSet, mapKeys, h, this]

theorem popMessages_split (s : Session) (limit : Int) :
    (s.PopMessages limit).1 ++ (s.PopMessages limit).2.Messages = s.Messages := by
  unfold Session.PopMessages
  simp only
  split_ifs with h1 h2 h3
  · simp
  · simp
  · simp
  · simp

theorem runQueueOps_concat (ops : List QueueOp) (s : Session) :
    (runQueueOps s ops).1.flatten ++ (runQueueOps s ops).2.Messages
      = s.Messages ++ enqueuedBy ops := by
  induction ops generalizing s with
  | nil => simp [runQueueOps, enqueuedBy]
  | cons op ops ih =>
    cases op with
    | add msg =>
      simp only [runQueueOps, enqueuedBy]
      rw [ih]
      simp [Session.AddMessage]
    | pop limit =>
      simp only [runQueueOps, enqueuedBy, List.flatten_cons, List.append_assoc]
      rw [ih]
      rw [← List.append_assoc, popMessages_split]

theorem receiveLimit_pos (query : List (String × String)) : 0 < receiveLimit query := by
  unfold receiveLimit
  simp only
  split_ifs
  · cases Atoi (queryGet query "limit") with
    | none => simp
    | some v =>
      simp only
      split_ifs with hv
      · exact hv
      · decide
  · decide

theorem popMessages_pos (s : Session) (limit : Int) (hpos : 0 < limit) :
    s.PopMessages limit =
      (s.Messages.take (min limit.toNat s.Messages.length),
        { s with Messages := s.Messages.drop (min limit.toNat s.Messages.length) }) := by
  obtain ⟨sid, stok, scl, sqr, sli, sco, sjid, smsgs⟩ := s
  unfold Session.PopMessages
  simp only
  by_cases hbig : limit > (smsgs.length : Int)
  · have hmin : min limit.toNat smsgs.length = smsgs.length := by
      apply Nat.min_eq_right
      omega
    rw [hmin]
    simp only [hbig, or_true, if_true]
    split_ifs with h0
    · have : smsgs = [] := by
        have : smsgs.length = 0 := by exact_mod_cast h0
        exact List.length_eq_zero.mp this
      simp [this]
    · simp
  · have hmin : min limit.toNat smsgs.length = limit.toNat := by
      apply Nat.min_eq_left
      omega
    rw [hmin]
    have h1 : ¬ (limit ≤ 0 ∨ limit > (smsgs.length : Int)) := by
      intro h
      rcases h with h | h
      · omega
      · exact hbig h
    have h0 : ¬ limit = 0 := by omega
    simp only [h1, if_false, h0]

theorem string_mk_ne_empty (cs : List Char) (h : cs ≠ []) : String.mk cs ≠ "" := by
  intro hs
  apply h
  have := congrArg String.data hs
  simpa using this

theorem fieldsAux_nonempty (rest cur : List Char) :
    ∀ f ∈ fieldsAux rest cur, f ≠ "" := by
  induction rest generalizing cur with
  | nil =>
    intro f hf
    by_cases hc : cur = []
    · simp [fieldsAux, hc] at hf
    · simp only [fieldsAux, hc, if_false, List.mem_singleton] at hf
      subst hf
      exact string_mk_ne_empty _ (by simpa using hc)
  | cons c rest ih =>
    intro f hf
    by_cases hsp : isSpace c = true
    · by_cases hc : cur = []
      · simp only [fieldsAux, hsp, hc, if_true] at hf
        exact ih [] f hf
      · simp only [fieldsAux, hsp, hc, if_true, if_false, List.mem_cons] at hf
        rcases hf with hf | hf
        · subst hf
          exact string_mk_ne_empty _ (by simpa using hc)
        · exact ih [] f hf
    · simp only [fieldsAux, hsp] at hf
      exact ih (c :: cur) f hf

theorem fields_nonempty (s : String) : ∀ f ∈ Fields s, f ≠ "" :=
  fieldsAux_nonempty s.data []

theorem map_eq_iff_of_agree (f g : Char → Char) (T : List Char)
    (h : ∀ c, ∀ x ∈ T, (f c = x ↔ g c = x)) (l t : List Char) (ht : ∀ x ∈ t, x ∈ T) :
    l.map f = t ↔ l.map g = t := by
  induction l generalizing t with
  | nil => simp
  | cons c l ih =>
    cases t with
    | nil => simp
    | cons x t =>
      have hx := h c x (ht x (List.mem_cons_self x t))
      have ht2 := ih t (fun y hy => ht y (List.mem_cons_of_mem x hy))
      simp only [List.map_cons, List.cons.injEq]
      rw [hx, ht2]

theorem toLower_bearer_iff (lower : Char → Char) (hl : lowerKeepsBearer lower)
    (scheme : String) :
    ToLower lower scheme = "bearer" ↔
      scheme.data.map Char.toLower = ['b', 'e', 'a', 'r', 'e', 'r'] := by
  have hdata : ToLower lower scheme = "bearer" ↔
      (scheme.data.map fun c => if c.toNat < 128 then c.toLower else lower c)
        = ['b', 'e', 'a', 'r', 'e', 'r'] := by
    unfold ToLower
    constructor
    · intro h
      have := congrArg String.data h
      simpa using this
    · intro h
      rw [h]
  rw [hdata]
  apply map_eq_iff_of_agree _ _ ['b', 'e', 'a', 'r']
  · intro c x hx
    by_cases hc : c.toNat < 128
    · simp [hc]
    · have h128 : 128 ≤ c.toNat := by omega
      obtain ⟨hb, he, ha, hr⟩ := hl c h128
      have hsame : c.toLower = c := by
        unfold Char.toLower
        simp only
        rw [if_neg]
        omega
      have hne : ∀ y : Char, y.toNat < 128 → c ≠ y := by
        intro y hy hcy
        subst hcy
        omega
      simp only [hc, if_false, hsame]
      simp only [List.mem_cons, List.mem_singleton, List.not_mem_nil, or_false] at hx
      rcases hx with hx | hx | hx | hx <;> subst hx
      · exact ⟨fun h => absurd h hb, fun h => absurd h (hne _ (by decide))⟩
      · exact ⟨fun h => absurd h he, fun h => absurd h (hne _ (by decide))⟩
      · exact ⟨fun h => absurd h ha, fun h => absurd h (hne _ (by decide))⟩
      · exact ⟨fun h => absurd h hr, fun h => absurd h (hne _ (by decide))⟩
  · intro x hx
    simp only [List.mem_cons, List.mem_singleton, List.not_mem_nil, or_false] at hx ⊢
    tauto

theorem trimSpace_written (token : String)
    (hhead : ∀ c, token.data.head? = some c → isSpace c = false)
    (hlast : ∀ c, token.data.getLast? = some c → isSpace c = false) :
    TrimSpace (token ++ "\n") = token := by
  have hnl : isSpace '\n' = true := by decide
  have hdata : (token ++ "\n").data = token.data ++ ['\n'] := by
    rw [String.data_append]
  unfold TrimSpace
  rw [hdata]
  cases hcs : token.data with
  | nil =>
    have htok : token = "" := by
      apply String.ext
      rw [hcs]
    simp [List.dropWhile, hnl, htok]
  | cons c cs =>
    have hc : isSpace c = false := hhead c (by rw [hcs]; rfl)
    have hdrop : List.dropWhile isSpace (c :: cs ++ ['\n']) = c :: cs ++ ['\n'] := by
      simp [List.dropWhile, hc]
    rw [hdrop, List.rdropWhile_concat_pos _ _ _ hnl]
    have hself : List.rdropWhile isSpace (c :: cs) = c :: cs := by
      rw [List.rdropWhile_eq_self_iff]
      intro hl
      have hl2 : (c :: cs).getLast? = some ((c :: cs).getLast hl) :=
        List.getLast?_eq_getLast _ hl
      have := hlast ((c :: cs).getLast hl) (by rw [hcs]; exact hl2)
      simp [this]
    rw [hself]
    apply String.ext
    rw [hcs]

theorem hexDigit_table : ∀ n, n < 16 →
    hexDigit n ∈ "0123456789abcdef".data ∧ isSpace (hexDigit n) = false := by
  decide

theorem encodeToString_chars (src : List Nat) :
    ∀ c ∈ (EncodeToString src).data,
      c ∈ "0123456789abcdef".data ∧ isSpace c = false := by
  intro c hc
  simp only [EncodeToString, List.mem_flatMap, List.mem_cons, List.mem_singleton,
    List.not_mem_nil, or_false] at hc
  obtain ⟨b, _, hb | hb⟩ := hc
  · rw [hb]
    exact hexDigit_table _ (Nat.mod_lt _ (by decide))
  · rw [hb]
    exact hexDigit_table _ (Nat.mod_lt _ (by decide))

theorem encodeToString_length (src : List Nat) :
    (EncodeToString src).length = 2 * src.length := by
  simp only [EncodeToString, String.length]
  induction src with
  | nil => rfl
  | cons b rest ih =>
    simp only [List.flatMap_cons, List.length_append, List.length_cons, List.length_nil, ih]
    omega

theorem mapSet_same {V : Type} (m : List (String × V)) (k : String) (v : V)
    (hk : mapGet m k = some v) : mapSet m k v = m := by
  induction m with
  | nil => simp [mapGet] at hk
  | cons p rest ih =>
    obtain ⟨k', v'⟩ := p
    by_cases h : k' = k
    · simp only [mapGet, h, if_true, Option.some.injEq] at hk
      simp [mapSet, h, hk]
    · simp only [mapGet, h, if_false] at hk
      simp [mapSet, h, ih hk]

theorem extractTextMessage_body (evt : Option MessageEvent) (msg : IncomingMessage)
    (h : extractTextMessage evt = some msg) : msg.Message ≠ "" := by
  unfold extractTextMessage at h
  cases evt with
  | none => simp at h
  | some e =>
    cases hm : e.Message with
    | none => simp [hm] at h
    | some w =>
      simp only [hm] at h
      by_cases h1 : w.GetConversation ≠ ""
      · simp only [if_pos h1] at h
        split_ifs at h with h2
        simp only [Option.some.injEq] at h
        rw [← h]
        exact h2
      · simp only [if_neg h1] at h
        split_ifs at h with h2
        simp only [Option.some.injEq] at h
        rw [← h]
        exact h2

theorem step_keeps_bodies (s s1 : Session) (st : Step)
    (hq : ∀ msg ∈ s.Messages, msg.Message ≠ "") (hs : stepSession s st = some s1) :
    ∀ msg ∈ s1.Messages, msg.Message ≠ "" := by
  have hsame : ∀ s2 : Session, s2.Messages = s.Messages →
      ∀ msg ∈ s2.Messages, msg.Message ≠ "" := by
    intro s2 h2 msg hmsg
    rw [h2] at hmsg
    exact hq msg hmsg
  have hconnect : ∀ (s0 : Session) (env : ConnectEnv),
      (Connect s0 env).session.Messages = s0.Messages := by
    intro s0 env
    unfold Connect
    cases s0.Client with
    | none => rfl
    | some c =>
      simp only
      split_ifs <;> simp [Session.UpdateStatusFromClient, Session.SetQR]
  cases st with
  | event evt =>
    cases evt with
    | Message e =>
      simp only [stepSession, handleEvent] at hs
      cases hx : extractTextMessage e with
      | none =>
        simp only [hx, Option.some.injEq] at hs
        exact hsame s1 (by rw [← hs])
      | some m0 =>
        simp only [hx, Option.some.injEq] at hs
        intro msg hmsg
        rw [← hs] at hmsg
        simp only [Session.AddMessage, List.mem_append, List.mem_singleton] at hmsg
        rcases hmsg with hmsg | hmsg
        · exact hq msg hmsg
        · rw [hmsg]
          exact extractTextMessage_body e m0 hx
    | Connected =>
      simp only [stepSession, handleEvent] at hs
      cases hc : s.Client with
      | none => simp [hc] at hs
      | some c =>
        simp only [hc] at hs
        cases hid : c.StoreID with
        | none =>
          simp only [hid, Option.some.injEq] at hs
          exact hsame s1 (by rw [← hs]; rfl)
        | some jid =>
          simp only [hid, Option.some.injEq] at hs
          exact hsame s1 (by rw [← hs]; rfl)
    | Disconnected =>
      simp only [stepSession, handleEvent, Option.some.injEq] at hs
      exact hsame s1 (by rw [← hs]; rfl)
    | LoggedOut =>
      simp only [stepSession, handleEvent, Option.some.injEq] at hs
      exact hsame s1 (by rw [← hs]; rfl)
    | Other =>
      simp only [stepSession, handleEvent, Option.some.injEq] at hs
      exact hsame s1 (by rw [← hs])
  | qr item =>
    simp only [stepSession, qrStreamStep, Option.some.injEq] at hs
    apply hsame s1
    rw [← hs]
    split_ifs <;> rfl
  | connect env =>
    simp only [stepSession, Option.some.injEq] at hs
    exact hsame s1 (by rw [← hs]; exact hconnect s env)
  | reconnect atWake env =>
    simp only [stepSession, Option.some.injEq] at hs
    apply hsame s1
    rw [← hs]
    unfold reconnectWithDelay
    cases s.Client with
    | none => rfl
    | some c =>
      simp only
      split_ifs
      · rfl
      · exact hconnect _ env
  | updateStatus =>
    simp only [stepSession, Option.some.injEq] at hs
    apply hsame s1
    rw [← hs]
    unfold Session.UpdateStatusFromClient
    cases s.Client <;> rfl
  | pop limit =>
    simp only [stepSession, Option.some.injEq] at hs
    intro msg hmsg
    apply hq
    rw [← popMessages_split s limit, hs]
    exact List.mem_append_right _ hmsg
  | clientChange c =>
    simp only [stepSession] at hs
    apply hsame s1
    cases hc : s.Client with
    | none =>
      simp only [hc, Option.some.injEq] at hs
      rw [← hs]
    | some c0 =>
      simp only [hc, Option.some.injEq] at hs
      rw [← hs]

theorem run_keeps_bodies (steps : List Step) (s s1 : Session)
    (hq : ∀ msg ∈ s.Messages, msg.Message ≠ "") (hs : runSteps s steps = some s1) :
    ∀ msg ∈ s1.Messages, msg.Message ≠ "" := by
  induction steps generalizing s with
  | nil =>
    simp only [runSteps, Option.some.injEq] at hs
    rw [← hs]
    exact hq
  | cons st rest ih =>
    simp only [runSteps] at hs
    cases hst : stepSession s st with
    | none => simp [hst] at hs
    | some s2 =>
      simp only [hst] at hs
      exact ih s2 (step_keeps_bodies s s2 st hq hst) hs

theorem registerAll_append (m : Manager) (l1 l2 : List (String × String × Client)) :
    registerAll m (l1 ++ l2) = registerAll (registerAll m l1) l2 := by
  simp [registerAll, List.foldl_append]

theorem restoreOne_registered (env : RestoreEnv) (st : RestoreState) (id : String) :
    ∃ extra, (restoreOne env st id).registered = st.registered ++ extra ∧
      (restoreOne env st id).m = registerAll st.m extra := by
  unfold restoreOne
  cases env.NewClient id with
  | error e => exact ⟨[], by simp, rfl⟩
  | ok client =>
    simp only
    cases ReadToken st.fs id with
    | ok token =>
      simp only
      split_ifs
      · cases env.newToken id with
        | error e => exact ⟨[], by simp, rfl⟩
        | ok t1 =>
          simp only [WriteToken]
          cases env.writeErr id with
          | some e => exact ⟨[], by simp, rfl⟩
          | none => exact ⟨[(id, t1, client)], rfl, rfl⟩
      · exact ⟨[(id, token, client)], rfl, rfl⟩
    | error e =>
      simp only
      cases env.newToken id with
      | error e => exact ⟨[], by simp, rfl⟩
      | ok t1 =>
        simp only [WriteToken]
        cases env.writeErr id with
        | some e => exact ⟨[], by simp, rfl⟩
        | none => exact ⟨[(id, t1, client)], rfl, rfl⟩

theorem restoreLoop_registered (env : RestoreEnv) (ids : List String) (st : RestoreState) :
    ∃ extra, (ids.foldl (restoreOne env) st).registered = st.registered ++ extra ∧
      (ids.foldl (restoreOne env) st).m = registerAll st.m extra := by
  induction ids generalizing st with
  | nil => exact ⟨[], by simp, rfl⟩
  | cons id rest ih =>
    obtain ⟨e1, hr1, hm1⟩ := restoreOne_registered env st id
    obtain ⟨e2, hr2, hm2⟩ := ih (restoreOne env st id)
    refine ⟨e1 ++ e2, ?_, ?_⟩
    · simp only [List.foldl_cons]
      rw [hr2, hr1, List.append_assoc]
    · simp only [List.foldl_cons]
      rw [hm2, hm1, registerAll_append]

theorem applyOp_eq_registerAll (m : Manager) (op : RegistryOp) :
    applyOp m op = registerAll m (insertionsOf m op) := by
  cases op with
  | create inp =>
    obtain ⟨rid, rtok, rcl, rwt⟩ := inp
    cases rid <;> cases rtok <;> cases rcl <;> cases rwt <;>
      simp [applyOp, insertionsOf, Manager.CreateSession, registerAll, Manager.register]
  | restore fs env readDir =>
    simp only [applyOp, insertionsOf, RestoreSessionsOnStartup]
    cases ListSessionIDs readDir with
    | error e => rfl
    | ok ids =>
      simp only
      obtain ⟨extra, hr, hm⟩ :=
        restoreLoop_registered env ids { m := m, fs := fs, minted := [], registered := [] }
      rw [hm, hr]
      simp

theorem register_tokensResolve (m : Manager) (id token : String) (client : Client)
    (hinv : tokensResolve m) (hid : mapGet m.sessions id = none) :
    tokensResolve (m.register id token client) := by
  intro t id1 ht
  simp only [Manager.register] at ht ⊢
  by_cases htk : t = token
  · subst htk
    rw [mapGet_mapSet_self] at ht
    simp only [Option.some.injEq] at ht
    subst ht
    refine ⟨_, mapGet_mapSet_self _ _ _, ?_, ?_⟩
    · cases client with
      | mk conn sid => simp [newSession, Session.UpdateStatusFromClient]
    · cases client with
      | mk conn sid => simp [newSession, Session.UpdateStatusFromClient]
  · rw [mapGet_mapSet_other _ _ _ _ htk] at ht
    obtain ⟨s0, hs0, htok, hsid⟩ := hinv t id1 ht
    have hne : id1 ≠ id := by
      intro h
      rw [h, hid] at hs0
      exact Option.noConfusion hs0
    exact ⟨s0, by rw [mapGet_mapSet_other _ _ _ _ hne]; exact hs0, htok, hsid⟩

theorem registerAll_tokensResolve (log : List (String × String × Client)) (m : Manager)
    (hinv : tokensResolve m) (hfresh : freshInsertions m log = true) :
    tokensResolve (registerAll m log) := by
  induction log generalizing m with
  | nil => exact hinv
  | cons entry rest ih =>
    obtain ⟨id, token, client⟩ := entry
    simp only [freshInsertions, Bool.and_eq_true, Option.isNone_iff_eq_none] at hfresh
    obtain ⟨⟨hid, _⟩, hrest⟩ := hfresh
    have := ih (m.register id token client)
      (register_tokensResolve m id token client hinv hid) hrest
    simpa [registerAll] using this

theorem runOps_tokensResolve (ops : List RegistryOp) (m : Manager)
    (hinv : tokensResolve m) (hfresh : freshRun m ops = true) :
    tokensResolve (runOps m ops) := by
  induction ops generalizing m with
  | nil => exact hinv
  | cons op rest ih =>
    simp only [freshRun, Bool.and_eq_true] at hfresh
    simp only [runOps]
    apply ih _ _ hfresh.2
    rw [applyOp_eq_registerAll]
    exact registerAll_tokensResolve _ m hinv hfresh.1

theorem register_tokensLive (m : Manager) (id token : String) (client : Client)
    (hlive : tokensLive m) : tokensLive (m.register id token client) := by
  intro t id1 ht
  simp only [Manager.register] at ht ⊢
  by_cases hid : id1 = id
  · subst hid
    exact ⟨_, mapGet_mapSet_self _ _ _⟩
  · rw [mapGet_mapSet_other _ _ _ _ hid]
    by_cases htk : t = token
    · subst htk
      rw [mapGet_mapSet_self] at ht
      simp only [Option.some.injEq] at ht
      exact absurd ht.symm hid
    · rw [mapGet_mapSet_other _ _ _ _ htk] at ht
      exact hlive t id1 ht

theorem runOps_tokensLive (ops : List RegistryOp) (m : Manager) (hlive : tokensLive m) :
    tokensLive (runOps m ops) := by
  induction ops generalizing m with
  | nil => exact hlive
  | cons op rest ih =>
    simp only [runOps]
    apply ih
    rw [applyOp_eq_registerAll]
    generalize insertionsOf m op = log
    induction log generalizing m with
    | nil => exact hlive
    | cons entry more ih2 =>
      simp only [registerAll, List.foldl_cons]
      exact ih2 _ (register_tokensLive m _ _ _ hlive)

/-! ## Claims -/

/-- C1: `PopMessages(limit)` returns the first `n` messages of the queue in queue order
and leaves exactly the rest, where `n` is the queue length when `limit <= 0` or
`limit > len` and `limit` otherwise; it touches no other field; with `limit <= 0` or
`limit > len` it returns the whole queue and leaves it empty; on an empty queue it
returns the empty sequence. -/
theorem C1_popMessages_prefix (s : Session) (limit : Int) :
    ((s.PopMessages limit).1 =
        s.Messages.take
          (if limit ≤ 0 ∨ limit > (s.Messages.length : Int) then s.Messages.length
           else limit.toNat)) ∧
    ((s.PopMessages limit).2 =
        { s with Messages := s.Messages.drop (if limit ≤ 0 ∨ limit > (s.Messages.length : Int) then s.Messages.length else limit.toNat) }) ∧
    ((limit ≤ 0 ∨ limit > (s.Messages.length : Int)) →
        (s.PopMessages limit).1 = s.Messages ∧ (s.PopMessages limit).2.Messages = []) ∧
    (s.Messages = [] → (s.PopMessages limit).1 = []) := by
  have key : ∀ (l : Int), (l ≤ 0 ∨ l > (s.Messages.length : Int)) →
      (s.PopMessages l).1 = s.Messages ∧ (s.PopMessages l).2.Messages = [] := by
    intro l hl
    unfold Session.PopMessages
    simp only [hl, or_self, if_true]
    split_ifs with h0
    · have : s.Messages = [] := by
        have : s.Messages.length = 0 := by exact_mod_cast h0
        exact List.length_eq_zero.mp this
      simp [this]
    · simp
  refine ⟨?_, ?_, key limit, ?_⟩
  · by_cases hl : limit ≤ 0 ∨ limit > (s.Messages.length : Int)
    · rw [(key limit hl).1]; simp [hl]
    · unfold Session.PopMessages
      simp only [hl, if_false]
      have h0 : ¬ limit = 0 := by
        intro h; apply hl; left; omega
      simp [h0]
  · by_cases hl : limit ≤ 0 ∨ limit > (s.Messages.length : Int)
    · unfold Session.PopMessages
      simp only [hl, or_self, if_true]
      split_ifs with h0
      · have : s.Messages = [] := by
          have : s.Messages.length = 0 := by exact_mod_cast h0
          exact List.length_eq_zero.mp this
        cases s
        simp_all
      · simp
    · unfold Session.PopMessages
      simp only [hl, if_false]
      have h0 : ¬ limit = 0 := by
        intro h; apply hl; left; omega
      simp [h0]
  · intro hempty
    apply (key limit _).1.trans hempty
    by_cases h : limit ≤ 0
    · exact Or.inl h
    · right; simp [hempty]; omega

/-- C2: for any sequence of `AddMessage` and `PopMessages` calls applied one after another
to a session whose queue starts empty, the results of the `PopMessages` calls followed by
the final queue are exactly the enqueued messages in enqueue order, so every message
occurs there as often as it was enqueued, and the final queue length is the number
enqueued minus the number returned. -/
theorem C2_queue_conservation (s : Session) (ops : List QueueOp) :
    ((runQueueOps { s with Messages := [] } ops).1.flatten
        ++ (runQueueOps { s with Messages := [] } ops).2.Messages = enqueuedBy ops) ∧
    (∀ msg : IncomingMessage,
      List.count msg ((runQueueOps { s with Messages := [] } ops).1.flatten
        ++ (runQueueOps { s with Messages := [] } ops).2.Messages)
        = List.count msg (enqueuedBy ops)) ∧
    (((runQueueOps { s with Messages := [] } ops).2.Messages.length : Int)
      = ((enqueuedBy ops).length : Int)
        - ((runQueueOps { s with Messages := [] } ops).1.flatten.length : Int)) := by
  have h := runQueueOps_concat ops { s with Messages := [] }
  simp only [List.nil_append] at h
  refine ⟨h, ?_, ?_⟩
  · intro msg
    rw [h]
  · have hl := congrArg List.length h
    rw [List.length_append] at hl
    omega

/-- C3: `SendTextByToken` checks, in this order, that the token is in the token index
and resolves to a session ("session not found"), that the session has a client
("session client not initialized"), that the client is connected ("session not
connected") and that it has an identity ("session not logged in"); a failing check
makes no send call; the underlying send is called, once, with the recipient and body,
and its error returned, if and only if all four checks pass. -/
theorem C3_sendText_checks (m : Manager) (SendMessage : SendCall → Option String)
    (token phone message : String) :
    (mapGet m.tokens token = none →
      m.SendTextByToken SendMessage token phone message = (some "session not found", [])) ∧
    (m.GetSessionByToken token = none →
      m.SendTextByToken SendMessage token phone message = (some "session not found", [])) ∧
    (∀ sess, m.GetSessionByToken token = some sess → sess.Client = none →
      m.SendTextByToken SendMessage token phone message
        = (some "session client not initialized", [])) ∧
    (∀ sess c, m.GetSessionByToken token = some sess → sess.Client = some c →
      c.IsConnected = false →
      m.SendTextByToken SendMessage token phone message = (some "session not connected", [])) ∧
    (∀ sess c, m.GetSessionByToken token = some sess → sess.Client = some c →
      c.IsConnected = true → c.StoreID = none →
      m.SendTextByToken SendMessage token phone message = (some "session not logged in", [])) ∧
    (∀ sess c jid, m.GetSessionByToken token = some sess → sess.Client = some c →
      c.IsConnected = true → c.StoreID = some jid →
      m.SendTextByToken SendMessage token phone message
        = (SendMessage { User := phone, Server := "s.whatsapp.net", Conversation := message },
           [{ User := phone, Server := "s.whatsapp.net", Conversation := message }])) ∧
    ((m.SendTextByToken SendMessage token phone message).2 ≠ [] ↔
      ∃ sess c jid, m.GetSessionByToken token = some sess ∧ sess.Client = some c ∧
        c.IsConnected = true ∧ c.StoreID = some jid) := by
  refine ⟨?_, ?_, ?_, ?_, ?_, ?_, ?_⟩
  · intro h
    simp [Manager.SendTextByToken, Manager.GetSessionByToken, h]
  · intro h
    simp [Manager.SendTextByToken, h]
  · intro sess h hc
    simp [Manager.SendTextByToken, h, hc]
  · intro sess c h hc hconn
    simp [Manager.SendTextByToken, h, hc, hconn]
  · intro sess c h hc hconn hid
    simp [Manager.SendTextByToken, h, hc, hconn, hid]
  · intro sess c jid h hc hconn hid
    simp [Manager.SendTextByToken, h, hc, hconn, hid]
  · unfold Manager.SendTextByToken
    cases h : m.GetSessionByToken token with
    | none => simp
    | some sess =>
      cases hc : sess.Client with
      | none => simp [hc]
      | some c =>
        cases hconn : c.IsConnected with
        | false => simp [hc, hconn]
        | true =>
          cases hid : c.StoreID with
          | none => simp [hc, hconn, hid]
          | some jid => simp [hc, hconn, hid]

/-- C3 (witness): on the sample registry the token resolves to a connected, paired
session, so the send is delegated with the recipient and body and its error returned. -/
theorem C3_sendText_checks_witness :
    sampleManager.SendTextByToken (fun _ => some "server busy") "tok-A" "4917" "hi"
      = (some "server busy",
         [{ User := "4917", Server := "s.whatsapp.net", Conversation := "hi" }]) ∧
    sampleManager.SendTextByToken (fun _ => none) "tok-X" "4917" "hi"
      = (some "session not found", []) :=
  ⟨(C3_sendText_checks sampleManager (fun _ => some "server busy") "tok-A" "4917"
      "hi").2.2.2.2.2.1 sampleSession ⟨true, some "4915@s.whatsapp.net"⟩
      "4915@s.whatsapp.net" (by decide) rfl rfl rfl,
   (C3_sendText_checks sampleManager (fun _ => none) "tok-X" "4917" "hi").1 (by decide)⟩

/-- C5: when `CreateSession` succeeds with token `t`, `GetSessionByToken(t)` on the
registry as it is when the call returns finds the session just constructed from the
generated id, `t` and the new client, whose `Token` is `t`; success happens exactly when
the four fallible steps succeed; when `CreateSession` fails, the id map and the token
index are unchanged. -/
theorem C5_create_then_lookup (m : Manager) (inp : CreateInputs) :
    (∀ t, (m.CreateSession inp).1 = .ok t →
      ∃ id client sess,
        inp.newSessionID = .ok id ∧ inp.newToken = .ok t ∧ inp.NewClient = .ok client ∧
        sess = (newSession id t (some client)).UpdateStatusFromClient ∧
        (m.CreateSession inp).2.GetSessionByToken t = some sess ∧
        (m.CreateSession inp).2.GetSession id = some sess ∧
        sess.Token = t ∧ sess.ID = id) ∧
    (∀ id t client, inp.newSessionID = .ok id → inp.newToken = .ok t →
      inp.NewClient = .ok client → inp.WriteToken = none →
      (m.CreateSession inp).1 = .ok t) ∧
    (∀ err, (m.CreateSession inp).1 = .error err → (m.CreateSession inp).2 = m) := by
  obtain ⟨rid, rtok, rcl, rwt⟩ := inp
  refine ⟨?_, ?_, ?_⟩
  · intro t ht
    cases rid with
    | error e => simp [Manager.CreateSession] at ht
    | ok id =>
      cases rtok with
      | error e => simp [Manager.CreateSession] at ht
      | ok tok =>
        cases rcl with
        | error e => simp [Manager.CreateSession] at ht
        | ok client =>
          cases rwt with
          | some e => simp [Manager.CreateSession] at ht
          | none =>
            simp only [Manager.CreateSession, Except.ok.injEq] at ht
            subst ht
            refine ⟨id, client, _, rfl, rfl, rfl, rfl, ?_, ?_, ?_, ?_⟩
            · simp [Manager.CreateSession, Manager.GetSessionByToken, Manager.GetSession,
                mapGet_mapSet_self]
            · simp [Manager.CreateSession, Manager.GetSession, mapGet_mapSet_self]
            · cases client with
              | mk conn sid => simp [newSession, Session.UpdateStatusFromClient]
            · cases client with
              | mk conn sid => simp [newSession, Session.UpdateStatusFromClient]
  · intro id t client h1 h2 h3 h4
    simp only at h1 h2 h3 h4
    subst h1 h2 h3 h4
    simp [Manager.CreateSession]
  · intro err herr
    cases rid with
    | error e => simp [Manager.CreateSession]
    | ok id =>
      cases rtok with
      | error e => simp [Manager.CreateSession]
      | ok tok =>
        cases rcl with
        | error e => simp [Manager.CreateSession]
        | ok client =>
          cases rwt with
          | some e => simp [Manager.CreateSession]
          | none => simp [Manager.CreateSession] at herr

/-- C5 (witness): creating a session on the sample registry with all four steps
succeeding returns the token, and the token then resolves to the new session. -/
theorem C5_create_then_lookup_witness :
    (sampleManager.CreateSession
        ⟨.ok "0a1b2c3d4e5f6071", .ok "tok-B", .ok ⟨false, none⟩, none⟩).1 = .ok "tok-B" ∧
    ∃ id client sess,
      (Except.ok "0a1b2c3d4e5f6071" : Except String String) = .ok id ∧
      (Except.ok "tok-B" : Except String String) = .ok "tok-B" ∧
      (Except.ok ⟨false, none⟩ : Except String Client) = .ok client ∧
      sess = (newSession id "tok-B" (some client)).UpdateStatusFromClient ∧
      (sampleManager.CreateSession
        ⟨.ok "0a1b2c3d4e5f6071", .ok "tok-B", .ok ⟨false, none⟩, none⟩).2.GetSessionByToken
          "tok-B" = some sess ∧
      (sampleManager.CreateSession
        ⟨.ok "0a1b2c3d4e5f6071", .ok "tok-B", .ok ⟨false, none⟩, none⟩).2.GetSession id
          = some sess ∧
      sess.Token = "tok-B" ∧ sess.ID = id :=
  ⟨rfl,
   (C5_create_then_lookup sampleManager
      ⟨.ok "0a1b2c3d4e5f6071", .ok "tok-B", .ok ⟨false, none⟩, none⟩).1 "tok-B" rfl⟩

/-- C6: the status invariant of the claim (`LoggedIn == true` implies `JID != ""`, and
`QR != ""` implies `LoggedIn == false`) is broken by the code. A fresh session connects,
a pairing code arrives, pairing completes in the client and the connected event is
dispatched before the "success" item of the QR channel is read: the handler sets
`LoggedIn` and leaves the QR payload set. The paths next to it do clear the QR payload
once there is an identity or the pairing ends: `Connect` on a client with identity, the
"success" and "timeout" items, the logged-out event; with the "success" item read before
the connected event the same run keeps the invariant. Inside the connected case the
session is also visible with `LoggedIn = true` and `JID = ""`, between `SetLoggedIn` and
`SetJID`; the last of these states is the one the handler ends in. -/
theorem C6_invariant_violated :
    runSteps (newSession "a1" "t1" (some ⟨false, none⟩))
        [.connect ⟨true, ⟨true, none⟩⟩, .qr ⟨"code", "2@AbC"⟩,
         .clientChange ⟨true, some "4915@s.whatsapp.net"⟩, .event .Connected]
      = some { ID := "a1", Token := "t1", Client := some ⟨true, some "4915@s.whatsapp.net"⟩,
               QR := "2@AbC", LoggedIn := true, Connected := true,
               JID := "4915@s.whatsapp.net", Messages := [] } ∧
    ¬ (∀ (id token : String) (c : Client) (steps : List Step) (s : Session),
        runSteps (newSession id token (some c)) steps = some s → statusInvariant s) ∧
    runSteps (newSession "a1" "t1" (some ⟨false, none⟩))
        [.connect ⟨true, ⟨true, none⟩⟩, .qr ⟨"code", "2@AbC"⟩, .qr ⟨"success", ""⟩,
         .clientChange ⟨true, some "4915@s.whatsapp.net"⟩, .event .Connected]
      = some { ID := "a1", Token := "t1", Client := some ⟨true, some "4915@s.whatsapp.net"⟩,
               QR := "", LoggedIn := true, Connected := true,
               JID := "4915@s.whatsapp.net", Messages := [] } ∧
    (∀ (s : Session) (c : Client) (env : ConnectEnv) (jid : String),
      s.Client = some c → c.IsConnected = false → c.StoreID = some jid →
      (Connect s env).session.QR = "") ∧
    (∀ (s : Session) (code : String),
      (qrStreamStep s ⟨"code", code⟩).QR = code ∧
      (qrStreamStep s ⟨"success", code⟩).QR = "" ∧
      (qrStreamStep s ⟨"timeout", code⟩).QR = "") ∧
    (∀ s : Session, ∃ s1, handleEvent s Event.LoggedOut = some s1 ∧ s1.QR = "" ∧
      s1.LoggedIn = false) ∧
    (∀ (s : Session) (c : Client) (jid : String),
      s.Client = some c → c.StoreID = some jid →
      ∃ s1, handleEvent s Event.Connected = some s1 ∧ s1.LoggedIn = true ∧ s1.QR = s.QR) ∧
    connectedEventStates
        { ID := "a1", Token := "t1", Client := some ⟨true, some "4915@s.whatsapp.net"⟩,
          QR := "", LoggedIn := false, Connected := false, JID := "", Messages := [] }
      = some [{ ID := "a1", Token := "t1",
                Client := some ⟨true, some "4915@s.whatsapp.net"⟩,
                QR := "", LoggedIn := false, Connected := true, JID := "", Messages := [] },
              { ID := "a1", Token := "t1",
                Client := some ⟨true, some "4915@s.whatsapp.net"⟩,
                QR := "", LoggedIn := true, Connected := true, JID := "", Messages := [] },
              { ID := "a1", Token := "t1",
                Client := some ⟨true, some "4915@s.whatsapp.net"⟩,
                QR := "", LoggedIn := true, Connected := true,
                JID := "4915@s.whatsapp.net", Messages := [] }] ∧
    (∀ s : Session,
      handleEvent s Event.Connected = (connectedEventStates s).bind List.getLast?) := by
  refine ⟨by decide, ?_, by decide, ?_, ?_, ?_, ?_, by decide, ?_⟩
  · intro h
    have hinv := h "a1" "t1" ⟨false, none⟩
      [.connect ⟨true, ⟨true, none⟩⟩, .qr ⟨"code", "2@AbC"⟩,
       .clientChange ⟨true, some "4915@s.whatsapp.net"⟩, .event .Connected]
      { ID := "a1", Token := "t1", Client := some ⟨true, some "4915@s.whatsapp.net"⟩,
        QR := "2@AbC", LoggedIn := true, Connected := true,
        JID := "4915@s.whatsapp.net", Messages := [] } (by decide)
    exact absurd hinv (by decide)
  · intro s c env jid hc hconn hid
    simp [Connect, hc, hconn, hid, Session.SetQR, Session.UpdateStatusFromClient]
  · intro s code
    refine ⟨?_, ?_, ?_⟩
    · simp [qrStreamStep, Session.SetQR]
    · simp [qrStreamStep, Session.SetQR]
    · simp [qrStreamStep, Session.SetQR]
  · intro s
    exact ⟨_, rfl, rfl, rfl⟩
  · intro s c jid hc hid
    refine ⟨(((s.SetConnected true).SetLoggedIn true).SetJID jid), ?_, rfl, rfl⟩
    simp [handleEvent, hc, hid]
  · intro s
    cases hc : s.Client with
    | none => simp [connectedEventStates, handleEvent, hc]
    | some c =>
      cases hid : c.StoreID with
      | none => simp [connectedEventStates, handleEvent, hc, hid]
      | some jid => simp [connectedEventStates, handleEvent, hc, hid]

/-- C7: the receive handler passes to `PopMessages` the limit `N` when the `limit`
parameter parses (`strconv.Atoi`) as an integer `N > 0`, and 20 when the parameter is
absent, empty, not a number, zero or negative; it answers 200 with the first
`min(limit, len(q))` messages in queue order and removes exactly those. With M1, M2, M3
queued, `limit=2` returns M1, M2, the next call without limit returns M3, and the call
after that returns no message. -/
theorem C7_receive_limit (sess : Session) (query : List (String × String))
    (M1 M2 M3 : IncomingMessage) :
    (handleReceiveMessages (some sess) query =
      (Response.messages 200
          (sess.Messages.take (min (receiveLimit query).toNat sess.Messages.length)),
        some { sess with Messages :=
          sess.Messages.drop (min (receiveLimit query).toNat sess.Messages.length) })) ∧
    (∀ N : Int, Atoi (queryGet query "limit") = some N → 0 < N → receiveLimit query = N) ∧
    ((∀ p ∈ query, p.1 ≠ "limit") → receiveLimit query = 20) ∧
    (queryGet query "limit" = "" → receiveLimit query = 20) ∧
    (Atoi (queryGet query "limit") = none → receiveLimit query = 20) ∧
    (∀ N : Int, Atoi (queryGet query "limit") = some N → N ≤ 0 → receiveLimit query = 20) ∧
    (handleReceiveMessages (some { sess with Messages := [M1, M2, M3] }) [("limit", "2")]
      = (Response.messages 200 [M1, M2], some { sess with Messages := [M3] })) ∧
    (handleReceiveMessages (some { sess with Messages := [M3] }) []
      = (Response.messages 200 [M3], some { sess with Messages := [] })) ∧
    (handleReceiveMessages (some { sess with Messages := [] }) []
      = (Response.messages 200 [], some { sess with Messages := [] })) := by
  have hgen : ∀ (s0 : Session) (q0 : List (String × String)),
      handleReceiveMessages (some s0) q0 =
        (Response.messages 200
            (s0.Messages.take (min (receiveLimit q0).toNat s0.Messages.length)),
          some { s0 with Messages :=
            s0.Messages.drop (min (receiveLimit q0).toNat s0.Messages.length) }) := by
    intro s0 q0
    simp only [handleReceiveMessages]
    rw [popMessages_pos s0 (receiveLimit q0) (receiveLimit_pos q0)]
  have h2 : receiveLimit [("limit", "2")] = 2 := by decide
  have h20 : receiveLimit [] = 20 := by decide
  refine ⟨hgen sess query, ?_, ?_, ?_, ?_, ?_, ?_, ?_, ?_⟩
  · intro N hN hpos
    have hne : queryGet query "limit" ≠ "" := by
      intro h
      rw [h] at hN
      have hempty : Atoi "" = none := by decide
      rw [hempty] at hN
      exact Option.noConfusion hN
    unfold receiveLimit
    simp only [hN, hpos, hne, if_true, ne_eq, not_false_eq_true, gt_iff_lt]
  · intro habs
    have hq : queryGet query "limit" = "" := by
      unfold queryGet
      have : query.find? (fun p => decide (p.1 = "limit")) = none := by
        rw [List.find?_eq_none]
        intro p hp
        simpa using habs p hp
      simp [this]
    simp [receiveLimit, hq]
  · intro hq
    simp [receiveLimit, hq]
  · intro hnone
    unfold receiveLimit
    simp only [hnone]
    split_ifs <;> rfl
  · intro N hN hle
    unfold receiveLimit
    have hnot : ¬ N > 0 := by omega
    simp only [hN, hnot, if_false]
    split_ifs <;> rfl
  · rw [hgen, h2]
    simp
  · rw [hgen, h20]
    simp
  · rw [hgen, h20]
    simp

/-- C8 (counterexample): with two messages queued, a receive call with `limit=1` returns
the first and leaves the second in the queue; with 21 queued, a call without limit
leaves the last one. -/
theorem C8_queue_not_cleared :
    (handleReceiveMessages
        (some { newSession "a1" "t1" (some ⟨true, some "4917@s.whatsapp.net"⟩) with
                Messages := [⟨"4915", "Ann", "hello", 1700000000⟩,
                             ⟨"4915", "Ann", "again", 1700000001⟩] })
        [("limit", "1")]).2.map Session.Messages
      = some [⟨"4915", "Ann", "again", 1700000001⟩] ∧
    (handleReceiveMessages
        (some { newSession "a1" "t1" (some ⟨true, some "4917@s.whatsapp.net"⟩) with
                Messages := List.replicate 20 ⟨"4915", "Ann", "hello", 1700000000⟩
                              ++ [⟨"4915", "Ann", "last", 1700000001⟩] })
        []).2.map Session.Messages
      = some [⟨"4915", "Ann", "last", 1700000001⟩] := by
  constructor
  · decide
  · decide

/-- C8 (amended): a receive call answers 200 with the first `min(L, len(q))` queued
messages, `L` being the effective limit (the `limit` parameter when it is a positive
integer, otherwise 20), and removes exactly those from the queue; the queue is empty
after the call if and only if it held at most `L` messages. -/
theorem C8_receive_removes_returned (sess : Session) (query : List (String × String)) :
    ∃ msgs after,
      handleReceiveMessages (some sess) query = (Response.messages 200 msgs, some after) ∧
      msgs = sess.Messages.take (min (receiveLimit query).toNat sess.Messages.length) ∧
      msgs ++ after.Messages = sess.Messages ∧
      after = { sess with Messages := after.Messages } ∧
      (after.Messages = [] ↔ (sess.Messages.length : Int) ≤ receiveLimit query) := by
  have hpos := receiveLimit_pos query
  refine ⟨sess.Messages.take (min (receiveLimit query).toNat sess.Messages.length),
    { sess with Messages :=
        sess.Messages.drop (min (receiveLimit query).toNat sess.Messages.length) },
    ?_, rfl, ?_, ?_, ?_⟩
  · simp only [handleReceiveMessages]
    rw [popMessages_pos sess (receiveLimit query) hpos]
  · simp
  · rfl
  · simp only [List.drop_eq_nil_iff]
    constructor
    · intro h
      have := le_min_iff.mp h
      omega
    · intro h
      apply le_min
      · omega
      · exact le_refl _

/-- C9: for a session registered under `id`, dispatching a logged-out event sets
`Connected = false`, `LoggedIn = false`, `JID = ""` and `QR = ""` and leaves its `ID`,
`Token`, client and message queue unchanged; the token index, the keys of the id map
and every other session are unchanged; dispatching any event for an id that is not in
the registry changes nothing. -/
theorem C9_logged_out_frame (m : Manager) (id : String) :
    (∀ sess, m.GetSession id = some sess →
      ∃ m1, m.makeEventHandler id Event.LoggedOut = some m1 ∧
        m1.GetSession id =
          some { sess with Connected := false, LoggedIn := false, JID := "", QR := "" } ∧
        m1.tokens = m.tokens ∧
        mapKeys m1.sessions = mapKeys m.sessions ∧
        (∀ id2, id2 ≠ id → m1.GetSession id2 = m.GetSession id2)) ∧
    (∀ evt, m.GetSession id = none → m.makeEventHandler id evt = some m) := by
  constructor
  · intro sess hs
    refine ⟨Manager.mk
        (mapSet m.sessions id ((((sess.SetConnected false).SetLoggedIn false).SetJID "").SetQR ""))
        m.tokens, ?_, ?_, ?_, ?_, ?_⟩
    · simp only [Manager.makeEventHandler, hs, handleEvent]
    · simp [Manager.GetSession, mapGet_mapSet_self, Session.SetConnected,
        Session.SetLoggedIn, Session.SetJID, Session.SetQR]
    · rfl
    · exact mapKeys_mapSet_present m.sessions id _ sess hs
    · intro id2 hne
      simp only [Manager.GetSession]
      exact mapGet_mapSet_other m.sessions id id2 _ hne
  · intro evt hs
    simp [Manager.makeEventHandler, hs]

/-- C9 (witness): a logged-out event for the session of the sample registry resets its
four status fields and keeps its queued message. -/
theorem C9_logged_out_frame_witness :
    ∃ m1, sampleManager.makeEventHandler "9f3c2a1b5d7e8f60" Event.LoggedOut = some m1 ∧
      m1.GetSession "9f3c2a1b5d7e8f60" =
        some { ID := "9f3c2a1b5d7e8f60", Token := "tok-A",
               Client := some ⟨true, some "4915@s.whatsapp.net"⟩, QR := "",
               LoggedIn := false, Connected := false, JID := "",
               Messages := [⟨"4917", "Ann", "hello", 1700000000⟩] } ∧
      m1.tokens = sampleManager.tokens ∧
      mapKeys m1.sessions = mapKeys sampleManager.sessions ∧
      (∀ id2, id2 ≠ "9f3c2a1b5d7e8f60" →
        m1.GetSession id2 = sampleManager.GetSession id2) :=
  (C9_logged_out_frame sampleManager "9f3c2a1b5d7e8f60").1 sampleSession (by decide)

/-- C10 (counterexample): a session is created, connects and shows a pairing code;
pairing then completes in the client. `Connect`, called before the connected event is
dispatched, returns with `LoggedIn = false` and `JID = ""`, while
`UpdateStatusFromClient` would set `LoggedIn = true` and the identity as `JID`. -/
theorem C10_connect_does_not_refresh :
    runSteps (newSession "a1" "t1" (some ⟨false, none⟩))
        [.updateStatus, .connect ⟨true, ⟨true, none⟩⟩,
         .clientChange ⟨true, some "4915@s.whatsapp.net"⟩] = some staleSession ∧
    (Connect staleSession ⟨true, ⟨true, some "4915@s.whatsapp.net"⟩⟩).session
      = { ID := "a1", Token := "t1", Client := some ⟨true, some "4915@s.whatsapp.net"⟩,
          QR := "", LoggedIn := false, Connected := true, JID := "", Messages := [] } ∧
    staleSession.UpdateStatusFromClient
      = { ID := "a1", Token := "t1", Client := some ⟨true, some "4915@s.whatsapp.net"⟩,
          QR := "", LoggedIn := true, Connected := true, JID := "4915@s.whatsapp.net",
          Messages := [] } ∧
    ¬ (∀ (s : Session) (c : Client) (env : ConnectEnv),
        s.Client = some c → c.IsConnected = true →
        (Connect s env).session.LoggedIn = s.UpdateStatusFromClient.LoggedIn ∧
        (Connect s env).session.JID = s.UpdateStatusFromClient.JID) := by
  refine ⟨by decide, by decide, by decide, ?_⟩
  intro h
  have h1 := (h staleSession ⟨true, some "4915@s.whatsapp.net"⟩
    ⟨true, ⟨true, some "4915@s.whatsapp.net"⟩⟩ rfl rfl).1
  exact absurd h1 (by decide)

/-- C10 (amended): for a session whose client reports that it is already connected,
`Connect` issues no client call and starts no QR stream, sets `Connected` to true, the
value `UpdateStatusFromClient` would set, and leaves every other field, `LoggedIn` and
`JID` included, as it was; a second `Connect` changes nothing further. -/
theorem C10_connect_when_connected (s : Session) (c : Client) (env env2 : ConnectEnv)
    (hclient : s.Client = some c) (hconn : c.IsConnected = true) :
    (Connect s env).calls = [] ∧
    (Connect s env).qrStream = false ∧
    (Connect s env).session = { s with Connected := true } ∧
    (Connect s env).session.Connected = s.UpdateStatusFromClient.Connected ∧
    Connect (Connect s env).session env2 = Connect s env := by
  obtain ⟨sid, stok, scl, sqr, sli, sco, sjid, smsgs⟩ := s
  simp only at hclient
  subst hclient
  simp [Connect, hconn, Session.UpdateStatusFromClient]

/-- C10 (witness): a logged-in session whose record says disconnected while the client
has already reconnected. -/
theorem C10_connect_when_connected_witness :
    (({ newSession "a1" "t1" (some ⟨true, some "4915@s.whatsapp.net"⟩) with
        LoggedIn := true, JID := "4915@s.whatsapp.net" } : Session).Client
      = some ⟨true, some "4915@s.whatsapp.net"⟩) ∧
    ((⟨true, some "4915@s.whatsapp.net"⟩ : Client).IsConnected = true) ∧
    ((Connect { newSession "a1" "t1" (some ⟨true, some "4915@s.whatsapp.net"⟩) with
                LoggedIn := true, JID := "4915@s.whatsapp.net" }
        ⟨false, ⟨false, none⟩⟩).calls = [] ∧
     (Connect { newSession "a1" "t1" (some ⟨true, some "4915@s.whatsapp.net"⟩) with
                LoggedIn := true, JID := "4915@s.whatsapp.net" }
        ⟨false, ⟨false, none⟩⟩).session.Connected = true) :=
  ⟨rfl, rfl,
    (C10_connect_when_connected
      { newSession "a1" "t1" (some ⟨true, some "4915@s.whatsapp.net"⟩) with
        LoggedIn := true, JID := "4915@s.whatsapp.net" }
      ⟨true, some "4915@s.whatsapp.net"⟩ ⟨false, ⟨false, none⟩⟩ ⟨false, ⟨false, none⟩⟩
      rfl rfl).1,
    (C10_connect_when_connected
      { newSession "a1" "t1" (some ⟨true, some "4915@s.whatsapp.net"⟩) with
        LoggedIn := true, JID := "4915@s.whatsapp.net" }
      ⟨true, some "4915@s.whatsapp.net"⟩ ⟨false, ⟨false, none⟩⟩ ⟨false, ⟨false, none⟩⟩
      rfl rfl).2.2.1 ▸ rfl⟩

/-- C11: the middleware `authSession` calls the wrapped handler, with session `sess` in
the request context, if and only if the Authorization header splits on whitespace into
exactly two fields, the first lowering to "bearer" and the second a token that resolves
to `sess`; in every other case it answers 401, the handler is not run and the registry is
left as it was. A token resolves to a session exactly when it is in the token index,
every indexed token referring to a registered id; lowering to "bearer" is equality with
"bearer" up to the case of ASCII letters. -/
theorem C11_auth_bearer (m : Manager) (lower : Char → Char)
    (header : List (String × List String)) :
    (∀ sess, authSession m lower header = AuthOutcome.next sess ↔
      ∃ scheme token, Fields (headerGet header "Authorization") = [scheme, token] ∧
        ToLower lower scheme = "bearer" ∧ m.GetSessionByToken token = some sess) ∧
    ((∀ sess, authSession m lower header ≠ AuthOutcome.next sess) →
      (authSession m lower header = AuthOutcome.reject 401 "missing bearer token" ∨
       authSession m lower header = AuthOutcome.reject 401 "invalid token") ∧
      ∀ next : Session → Manager → Response × Manager,
        (serveWithAuth m lower header next).2 = m ∧
        ((serveWithAuth m lower header next).1 = Response.error 401 "missing bearer token" ∨
         (serveWithAuth m lower header next).1 = Response.error 401 "invalid token")) ∧
    (∀ sess next, authSession m lower header = AuthOutcome.next sess →
      serveWithAuth m lower header next = next sess m) ∧
    (tokensLive m → ∀ token,
      (∃ sess, m.GetSessionByToken token = some sess) ↔ mapGet m.tokens token ≠ none) ∧
    (lowerKeepsBearer lower → ∀ scheme,
      (ToLower lower scheme = "bearer" ↔
        scheme.data.map Char.toLower = ['b', 'e', 'a', 'r', 'e', 'r'])) := by
  refine ⟨?_, ?_, ?_, ?_, ?_⟩
  · intro sess
    unfold authSession extractBearerToken
    simp only
    by_cases hauth : headerGet header "Authorization" = ""
    · have hf : Fields "" = [] := by decide
      simp [hauth, hf]
    · simp only [hauth, if_false]
      have hne := fields_nonempty (headerGet header "Authorization")
      rcases hfs : Fields (headerGet header "Authorization") with _ | ⟨a, _ | ⟨b, _ | ⟨c, rest⟩⟩⟩
      · simp
      · simp
      · have hb : b ≠ "" := hne b (by rw [hfs]; simp)
        by_cases hlow : ToLower lower a = "bearer"
        · simp only [hlow, ne_eq, not_true_eq_false, if_false, hb]
          cases hg : m.GetSessionByToken b with
          | none => simp [hlow, hg]
          | some s0 =>
            simp only [AuthOutcome.next.injEq, List.cons.injEq, and_true]
            constructor
            · intro h
              exact ⟨a, b, ⟨rfl, rfl⟩, hlow, by rw [hg, h]⟩
            · rintro ⟨x, y, ⟨rfl, rfl⟩, _, h⟩
              rw [hg] at h
              exact Option.some.inj h
        · simp only [hlow, ne_eq, not_false_eq_true, if_true]
          simp only [List.cons.injEq, and_true]
          constructor
          · intro h
            exact absurd h (by simp)
          · rintro ⟨x, y, ⟨rfl, rfl⟩, h, _⟩
            exact absurd h hlow
      · simp
  · intro hno
    have hcases : authSession m lower header = AuthOutcome.reject 401 "missing bearer token" ∨
        authSession m lower header = AuthOutcome.reject 401 "invalid token" := by
      rcases hout : authSession m lower header with ⟨st, text⟩ | sess
      · unfold authSession at hout
        simp only at hout
        split_ifs at hout with h1
        · simp only [AuthOutcome.reject.injEq] at hout
          simp [hout.1.symm, hout.2.symm]
        · cases hg : m.GetSessionByToken (extractBearerToken lower header) with
          | none =>
            rw [hg] at hout
            simp only [AuthOutcome.reject.injEq] at hout
            simp [hout.1.symm, hout.2.symm]
          | some s0 =>
            rw [hg] at hout
            simp at hout
      · exact absurd hout (hno sess)
    refine ⟨hcases, ?_⟩
    intro next
    unfold serveWithAuth
    rcases hcases with h | h <;> rw [h] <;> simp
  · intro sess next h
    unfold serveWithAuth
    rw [h]
  · intro hlive token
    unfold Manager.GetSessionByToken Manager.GetSession
    cases ht : mapGet m.tokens token with
    | none => simp
    | some id =>
      obtain ⟨s0, hs0⟩ := hlive token id ht
      simp [hs0]
  · intro hl scheme
    exact toLower_bearer_iff lower hl scheme

/-- C11 (witness): on the sample registry, a header with scheme BEARER in capitals and
the session's token, separated by a tab, reaches the handler with that session; a missing
header, a single field, three fields, another scheme and an unknown token are answered
401. -/
theorem C11_auth_bearer_witness :
    authSession sampleManager sampleLower [("Authorization", ["BEARER\ttok-A"])]
      = AuthOutcome.next sampleSession ∧
    authSession sampleManager sampleLower []
      = AuthOutcome.reject 401 "missing bearer token" ∧
    authSession sampleManager sampleLower [("Authorization", ["tok-A"])]
      = AuthOutcome.reject 401 "missing bearer token" ∧
    authSession sampleManager sampleLower [("Authorization", ["Bearer tok-A x"])]
      = AuthOutcome.reject 401 "missing bearer token" ∧
    authSession sampleManager sampleLower [("Authorization", ["Basic tok-A"])]
      = AuthOutcome.reject 401 "missing bearer token" ∧
    authSession sampleManager sampleLower [("Authorization", ["Bearer tok-Z"])]
      = AuthOutcome.reject 401 "invalid token" :=
  ⟨((C11_auth_bearer sampleManager sampleLower
        [("Authorization", ["BEARER\ttok-A"])]).1 sampleSession).2
      ⟨"BEARER", "tok-A", by decide, by decide, by decide⟩,
   by decide, by decide, by decide, by decide, by decide⟩

/-- C12: for a token without leading or trailing white space, `WriteToken` stores the
token followed by a newline and `ReadToken` reads back exactly the token; a token made by
`newToken` from 32 random bytes is 64 lowercase hexadecimal digits and is read back
unchanged; restoration of a session whose client is rebuilt registers it under the token
read when that is non-empty, without calling `newToken`, and calls `newToken` when the
read fails or the trimmed content is empty, registering the session under the new token
once it is written; when the client cannot be rebuilt nothing is read or minted. -/
theorem C12_token_roundtrip (fs : FileSystem) (id token : String)
    (rand : Nat → Except String (List Nat)) (env : RestoreEnv) (st : RestoreState) :
    ((∀ c, token.data.head? = some c → isSpace c = false) →
     (∀ c, token.data.getLast? = some c → isSpace c = false) →
      (WriteToken fs id token none).1 = none ∧
      mapGet (WriteToken fs id token none).2 (TokenPath id) = some (token ++ "\n") ∧
      ReadToken (WriteToken fs id token none).2 id = .ok token) ∧
    (∀ buf, rand 32 = .ok buf → buf.length = 32 →
      ∃ t, newToken rand = .ok t ∧ t.length = 64 ∧
        (∀ c ∈ t.data, c ∈ "0123456789abcdef".data) ∧
        ReadToken (WriteToken fs id t none).2 id = .ok t) ∧
    (∀ client, token ≠ "" →
      (∀ c, token.data.head? = some c → isSpace c = false) →
      (∀ c, token.data.getLast? = some c → isSpace c = false) →
      env.NewClient id = .ok client → st.fs = (WriteToken fs id token none).2 →
      restoreOne env st id = st.register id token client ∧
      (restoreOne env st id).minted = st.minted ∧
      (restoreOne env st id).m.GetSessionByToken token
        = some (newSession id token (some client)).UpdateStatusFromClient) ∧
    (∀ client t, env.NewClient id = .ok client → ReadToken st.fs id = .ok t → t ≠ "" →
      restoreOne env st id = st.register id t client) ∧
    (∀ client, env.NewClient id = .ok client →
      (ReadToken st.fs id = .ok "" ∨ ∃ err, ReadToken st.fs id = .error err) →
      (restoreOne env st id).minted = st.minted ++ [id] ∧
      (∀ t1, env.newToken id = .ok t1 → env.writeErr id = none →
        (restoreOne env st id).m = st.m.register id t1 client ∧
        mapGet (restoreOne env st id).fs (TokenPath id) = some (t1 ++ "\n"))) ∧
    (∀ err, env.NewClient id = .error err → restoreOne env st id = st) := by
  have hround : ∀ tk : String,
      (∀ c, tk.data.head? = some c → isSpace c = false) →
      (∀ c, tk.data.getLast? = some c → isSpace c = false) →
      ReadToken (WriteToken fs id tk none).2 id = .ok tk := by
    intro tk h1 h2
    simp only [ReadToken, WriteToken, mapGet_mapSet_self]
    rw [trimSpace_written tk h1 h2]
  have hreuse : ∀ client t, env.NewClient id = .ok client → ReadToken st.fs id = .ok t →
      t ≠ "" → restoreOne env st id = st.register id t client := by
    intro client t hcl hread hne
    simp only [restoreOne, hcl, hread, hne, if_false]
  refine ⟨?_, ?_, ?_, hreuse, ?_, ?_⟩
  · intro h1 h2
    refine ⟨rfl, ?_, hround token h1 h2⟩
    simp [WriteToken, mapGet_mapSet_self]
  · intro buf hbuf hlen
    refine ⟨EncodeToString buf, ?_, ?_, ?_, ?_⟩
    · simp [newToken, hbuf]
    · rw [encodeToString_length, hlen]
    · intro c hc
      exact (encodeToString_chars buf c hc).1
    · apply hround
      · intro c hc
        exact (encodeToString_chars buf c (List.mem_of_mem_head? hc)).2
      · intro c hc
        exact (encodeToString_chars buf c (List.mem_of_mem_getLast? hc)).2
  · intro client hne h1 h2 hcl hfs
    have hread : ReadToken st.fs id = .ok token := by
      rw [hfs]
      exact hround token h1 h2
    have heq := hreuse client token hcl hread hne
    refine ⟨heq, ?_, ?_⟩
    · rw [heq]
      rfl
    · rw [heq]
      simp [RestoreState.register, Manager.register, Manager.GetSessionByToken,
        Manager.GetSession, mapGet_mapSet_self]
  · intro client hcl hread
    have hmint : ∀ (P : RestoreState → Prop),
        P ({ st with minted := st.minted ++ [id] }) →
        (∀ t1, env.newToken id = .ok t1 → ∀ e, env.writeErr id = some e →
          P ({ st with fs := st.fs, minted := st.minted ++ [id] })) →
        (∀ t1, env.newToken id = .ok t1 → env.writeErr id = none →
          P (({ st with fs := mapSet st.fs (TokenPath id) (t1 ++ "\n"),
                        minted := st.minted ++ [id] } : RestoreState).register id t1 client)) →
        P (restoreOne env st id) := by
      intro P hP1 hP2 hP3
      rcases hread with hread | ⟨err, hread⟩
      · simp only [restoreOne, hcl, hread, if_true]
        cases hnt : env.newToken id with
        | error e => simpa using hP1
        | ok t1 =>
          cases hw : env.writeErr id with
          | some e => simpa [WriteToken, hw] using hP2 t1 hnt e hw
          | none => simpa [WriteToken, hw] using hP3 t1 hnt hw
      · simp only [restoreOne, hcl, hread]
        cases hnt : env.newToken id with
        | error e => simpa using hP1
        | ok t1 =>
          cases hw : env.writeErr id with
          | some e => simpa [WriteToken, hw] using hP2 t1 hnt e hw
          | none => simpa [WriteToken, hw] using hP3 t1 hnt hw
    constructor
    · apply hmint (fun r => r.minted = st.minted ++ [id])
      · rfl
      · intro _ _ _ _; rfl
      · intro _ _ _; rfl
    · intro t1 hnt hw
      rcases hread with hread | ⟨err, hread⟩
      · simp [restoreOne, hcl, hread, hnt, hw, WriteToken, RestoreState.register,
          mapGet_mapSet_self]
      · simp [restoreOne, hcl, hread, hnt, hw, WriteToken, RestoreState.register,
          mapGet_mapSet_self]
  · intro err hcl
    simp only [restoreOne, hcl]

/-- C12 (witness): the token written for session `aa` is read back; a restoration on that
file system registers the session under it and mints nothing; 32 random bytes give a
token of 64 hexadecimal digits. -/
theorem C12_token_roundtrip_witness :
    ReadToken (WriteToken [] "aa" "tok-A" none).2 "aa" = .ok "tok-A" ∧
    (restoreOne sampleRestoreEnv
        ⟨GetManager, (WriteToken [] "aa" "tok-A" none).2, [], []⟩ "aa").minted = [] ∧
    (restoreOne sampleRestoreEnv
        ⟨GetManager, (WriteToken [] "aa" "tok-A" none).2, [], []⟩ "aa").m.GetSessionByToken
          "tok-A"
      = some (newSession "aa" "tok-A"
          (some ⟨false, some "4915@s.whatsapp.net"⟩)).UpdateStatusFromClient ∧
    newToken (fun n => .ok (List.replicate n 171))
      = .ok "abababababababababababababababababababababababababababababababab" :=
  ⟨((C12_token_roundtrip [] "aa" "tok-A" (fun n => .ok (List.replicate n 171))
        sampleRestoreEnv ⟨GetManager, (WriteToken [] "aa" "tok-A" none).2, [], []⟩).1
      (fun c hc => by cases hc; decide) (fun c hc => by cases hc; decide)).2.2,
   ((C12_token_roundtrip [] "aa" "tok-A" (fun n => .ok (List.replicate n 171))
        sampleRestoreEnv ⟨GetManager, (WriteToken [] "aa" "tok-A" none).2, [], []⟩).2.2.1
      ⟨false, some "4915@s.whatsapp.net"⟩ (by decide)
      (fun c hc => by cases hc; decide) (fun c hc => by cases hc; decide) rfl rfl).2.1,
   ((C12_token_roundtrip [] "aa" "tok-A" (fun n => .ok (List.replicate n 171))
        sampleRestoreEnv ⟨GetManager, (WriteToken [] "aa" "tok-A" none).2, [], []⟩).2.2.1
      ⟨false, some "4915@s.whatsapp.net"⟩ (by decide)
      (fun c hc => by cases hc; decide) (fun c hc => by cases hc; decide) rfl rfl).2.2,
   rfl⟩

/-- C13: an inbound message event dispatched to a registered session leaves the registry,
and so the queue, as it was when the event or its message payload is absent or when both
the conversation text and the extended-text body are empty; otherwise it appends exactly
one message at the tail of the queue, whose body is the conversation text when that is
non-empty and the extended-text body otherwise, with the sender user, push name and Unix
receipt time of the event, and changes nothing else; the body is never empty, and no
queue reached from a fresh session ever holds a message with an empty body. -/
theorem C13_inbound_text (m : Manager) (id : String) (evt : Option MessageEvent) :
    (∀ sess, m.GetSession id = some sess →
      ((evt = none ∨ ∃ e, evt = some e ∧ (e.Message = none ∨
          ∃ w, e.Message = some w ∧ w.GetConversation = "" ∧ extendedText w = "")) →
        m.makeEventHandler id (Event.Message evt) = some m) ∧
      (∀ e w, evt = some e → e.Message = some w →
        (w.GetConversation ≠ "" ∨ extendedText w ≠ "") →
        ∃ m1 body, m.makeEventHandler id (Event.Message evt) = some m1 ∧
          body = (if w.GetConversation ≠ "" then w.GetConversation else extendedText w) ∧
          body ≠ "" ∧
          m1.GetSession id = some (sess.AddMessage ⟨e.SenderUser, e.PushName, body, e.TimestampUnix⟩) ∧
          (sess.AddMessage ⟨e.SenderUser, e.PushName, body, e.TimestampUnix⟩).Messages
            = sess.Messages ++ [⟨e.SenderUser, e.PushName, body, e.TimestampUnix⟩] ∧
          m1.tokens = m.tokens ∧
          (∀ id2, id2 ≠ id → m1.GetSession id2 = m.GetSession id2))) ∧
    (∀ msg, extractTextMessage evt = some msg → msg.Message ≠ "") ∧
    (∀ (id0 token : String) (c : Option Client) (steps : List Step) (s : Session),
      runSteps (newSession id0 token c) steps = some s →
      ∀ msg ∈ s.Messages, msg.Message ≠ "") := by
  refine ⟨?_, extractTextMessage_body evt, ?_⟩
  · intro sess hs
    constructor
    · intro habs
      have hx : extractTextMessage evt = none := by
        rcases habs with h | ⟨e, he, h | ⟨w, hw, hconv, hext⟩⟩
        · simp [h, extractTextMessage]
        · simp [he, h, extractTextMessage]
        · simp only [extendedText] at hext
          simp [he, hw, extractTextMessage, hconv, hext]
      have hset : mapSet m.sessions id sess = m.sessions := mapSet_same m.sessions id sess hs
      simp [Manager.makeEventHandler, hs, handleEvent, hx, hset]
    · intro e w he hw hbody
      have hne : (if w.GetConversation ≠ "" then w.GetConversation else extendedText w) ≠ "" := by
        by_cases h1 : w.GetConversation ≠ ""
        · rw [if_pos h1]; exact h1
        · rw [if_neg h1]
          rcases hbody with h | h
          · exact absurd h h1
          · exact h
      have hx : extractTextMessage evt = some ⟨e.SenderUser, e.PushName,
          (if w.GetConversation ≠ "" then w.GetConversation else extendedText w),
          e.TimestampUnix⟩ := by
        simp only [extendedText] at hne
        simp only [he, hw, extractTextMessage, extendedText]
        rw [if_neg hne]
      refine ⟨Manager.mk (mapSet m.sessions id (sess.AddMessage ⟨e.SenderUser, e.PushName,
          (if w.GetConversation ≠ "" then w.GetConversation else extendedText w),
          e.TimestampUnix⟩)) m.tokens, _, ?_, rfl, hne, ?_, rfl, rfl, ?_⟩
      · simp only [Manager.makeEventHandler, hs, handleEvent, hx]
      · simp [Manager.GetSession, mapGet_mapSet_self]
      · intro id2 hne2
        simp only [Manager.GetSession]
        exact mapGet_mapSet_other m.sessions id id2 _ hne2
  · intro id0 token c steps s hrun
    exact run_keeps_bodies steps (newSession id0 token c) s (by simp [newSession]) hrun

/-- C13 (witness): the session of the sample registry receives an extended-text message
with an empty conversation field; the message is appended after the one already queued. -/
theorem C13_inbound_text_witness :
    ∃ m1 body,
      sampleManager.makeEventHandler "9f3c2a1b5d7e8f60"
        (Event.Message (some ⟨"4918", "Bob", 1700000500,
          some ⟨none, some ⟨some "see you"⟩⟩⟩)) = some m1 ∧
      body = "see you" ∧ body ≠ "" ∧
      m1.GetSession "9f3c2a1b5d7e8f60"
        = some (sampleSession.AddMessage ⟨"4918", "Bob", body, 1700000500⟩) ∧
      (sampleSession.AddMessage ⟨"4918", "Bob", body, 1700000500⟩).Messages
        = sampleSession.Messages ++ [⟨"4918", "Bob", body, 1700000500⟩] ∧
      m1.tokens = sampleManager.tokens ∧
      (∀ id2, id2 ≠ "9f3c2a1b5d7e8f60" →
        m1.GetSession id2 = sampleManager.GetSession id2) :=
  ((C13_inbound_text sampleManager "9f3c2a1b5d7e8f60"
      (some ⟨"4918", "Bob", 1700000500, some ⟨none, some ⟨some "see you"⟩⟩⟩)).1
      sampleSession (by decide)).2
    ⟨"4918", "Bob", 1700000500, some ⟨none, some ⟨some "see you"⟩⟩⟩
    ⟨none, some ⟨some "see you"⟩⟩ rfl rfl (Or.inr (by decide))

/-- C14: in every registry reached from the empty registry by `CreateSession` and
`RestoreSessionsOnStartup` calls whose insertions each use an id that is not yet a key
of the id map and a token that is not yet a key of the token index, every token of the
index maps to an id of the id map, `GetSessionByToken` of it returns a session whose
`Token` is that token, and two different tokens resolve to different sessions, registered
under different ids. Without fresh ids this fails: after a second registration under the
same id, the older token resolves to the session that carries the newer token. -/
theorem C14_registry_invariant (ops : List RegistryOp)
    (hfresh : freshRun GetManager ops = true) :
    (∀ t id, mapGet (runOps GetManager ops).tokens t = some id →
      ∃ s, (runOps GetManager ops).GetSession id = some s ∧
        (runOps GetManager ops).GetSessionByToken t = some s ∧ s.Token = t) ∧
    tokensLive (runOps GetManager ops) ∧
    (∀ t1 t2 s1 s2, t1 ≠ t2 →
      (runOps GetManager ops).GetSessionByToken t1 = some s1 →
      (runOps GetManager ops).GetSessionByToken t2 = some s2 →
      s1 ≠ s2 ∧ s1.ID ≠ s2.ID) ∧
    (∀ (m : Manager) (id t1 t2 : String) (c1 c2 : Client), t1 ≠ t2 →
      ∃ s, ((m.register id t1 c1).register id t2 c2).GetSessionByToken t1 = some s ∧
        s.Token = t2) := by
  have hempty : tokensResolve GetManager := by
    intro t id h
    simp [GetManager, mapGet] at h
  have hinv := runOps_tokensResolve ops GetManager hempty hfresh
  have hres : ∀ t s, (runOps GetManager ops).GetSessionByToken t = some s →
      s.Token = t ∧ mapGet (runOps GetManager ops).tokens t = some s.ID := by
    intro t s hs
    unfold Manager.GetSessionByToken Manager.GetSession at hs
    cases ht : mapGet (runOps GetManager ops).tokens t with
    | none => simp [ht] at hs
    | some id =>
      simp only [ht] at hs
      obtain ⟨s0, hs0, htok, hsid⟩ := hinv t id ht
      rw [hs0] at hs
      simp only [Option.some.injEq] at hs
      subst hs
      exact ⟨htok, by rw [hsid]⟩
  refine ⟨?_, ?_, ?_, ?_⟩
  · intro t id ht
    obtain ⟨s0, hs0, htok, _⟩ := hinv t id ht
    refine ⟨s0, hs0, ?_, htok⟩
    simp [Manager.GetSessionByToken, Manager.GetSession, ht, hs0]
  · intro t id ht
    obtain ⟨s0, hs0, _, _⟩ := hinv t id ht
    exact ⟨s0, hs0⟩
  · intro t1 t2 s1 s2 hne h1 h2
    obtain ⟨htok1, hid1⟩ := hres t1 s1 h1
    obtain ⟨htok2, hid2⟩ := hres t2 s2 h2
    constructor
    · intro h
      apply hne
      rw [← htok1, ← htok2, h]
    · intro h
      rw [h] at hid1
      obtain ⟨s0, hs0, htokA, _⟩ := hinv t1 s2.ID hid1
      obtain ⟨s3, hs3, htokB, _⟩ := hinv t2 s2.ID hid2
      rw [hs0] at hs3
      simp only [Option.some.injEq] at hs3
      apply hne
      rw [← htokA, ← htokB, hs3]
  · intro m id t1 t2 c1 c2 hne
    refine ⟨(newSession id t2 (some c2)).UpdateStatusFromClient, ?_, ?_⟩
    · simp only [Manager.GetSessionByToken, Manager.GetSession, Manager.register]
      rw [mapGet_mapSet_other _ _ _ _ hne, mapGet_mapSet_self]
      simp only
      rw [mapGet_mapSet_self]
    · cases c2 with
      | mk conn sid => simp [newSession, Session.UpdateStatusFromClient]

/-- C14 (witness): a restoration finds two session directories, one with a token file and
one without, and a session is created afterwards; all ids and tokens are fresh. -/
theorem C14_registry_invariant_witness :
    freshRun GetManager
      [RegistryOp.restore [("store/session_aa/token.txt", "tok-A\n")] sampleRestoreEnv
          (.ok [⟨"session_aa", true⟩, ⟨"session_bb", true⟩, ⟨"notes", true⟩]),
       RegistryOp.create ⟨.ok "cc", .ok "tok-C", .ok ⟨false, none⟩, none⟩] = true ∧
    (runOps GetManager
      [RegistryOp.restore [("store/session_aa/token.txt", "tok-A\n")] sampleRestoreEnv
          (.ok [⟨"session_aa", true⟩, ⟨"session_bb", true⟩, ⟨"notes", true⟩]),
       RegistryOp.create ⟨.ok "cc", .ok "tok-C", .ok ⟨false, none⟩, none⟩]).tokens
      = [("tok-A", "aa"), ("tok-minted", "bb"), ("tok-C", "cc")] ∧
    tokensLive (runOps GetManager
      [RegistryOp.restore [("store/session_aa/token.txt", "tok-A\n")] sampleRestoreEnv
          (.ok [⟨"session_aa", true⟩, ⟨"session_bb", true⟩, ⟨"notes", true⟩]),
       RegistryOp.create ⟨.ok "cc", .ok "tok-C", .ok ⟨false, none⟩, none⟩]) :=
  ⟨by decide, by decide,
   (C14_registry_invariant
      [RegistryOp.restore [("store/session_aa/token.txt", "tok-A\n")] sampleRestoreEnv
          (.ok [⟨"session_aa", true⟩, ⟨"session_bb", true⟩, ⟨"notes", true⟩]),
       RegistryOp.create ⟨.ok "cc", .ok "tok-C", .ok ⟨false, none⟩, none⟩]
      (by decide)).2.1⟩

end WaSession
